import Mathlib

/-!
# Cypress bootloader driver (librazer/cypress_bootloader.c)

A shallow embedding of the firmware-upload client and a verification of its
command framing, checksum, status validation and upload sequencing.

Modelling conventions.

* Memory bytes are natural numbers; every store into a `uint8_t`/`char`
  object reduces modulo 256, every `unsigned int` operation reduces modulo
  `2 ^ 32`, the `uint16_t` parameter of `cypress_cmd_writefl` reduces modulo
  `2 ^ 16`.
* A `struct cypress_command` is its 64-byte packed memory image (the code
  itself reads it through a `char *` in `cmd_checksum`): `command` occupies
  offsets 0..1, `key` offsets 2..9 and `payload` offsets 10..63.
* The outside world (USB transfers, the sleep, the key-assignment callback)
  is an explicit `World` value threaded through the code: it holds the
  outcome of every future `libusb_bulk_transfer` call and the trace of the
  calls made so far.
* Diagnostics (`razer_error`, `razer_info`, `razer_dump`) do not influence
  control flow or the wire and are left out of the trace; the text that
  `cypress_print_status` builds, and the status it is built from, are
  modelled as pure functions of their own.
-/

namespace Cypress

/-! ## Constants -/

def CYPRESS_CMD_ENTERBL : Nat := 0xFF38
def CYPRESS_CMD_WRITEFL : Nat := 0xFF39
def CYPRESS_CMD_VERIFYFL : Nat := 0xFF3A
def CYPRESS_CMD_EXITBL : Nat := 0xFF3B
def CYPRESS_CMD_UPCHK : Nat := 0xFF3C

def CYPRESS_STAT_BLMODE : Nat := 0x20
def CYPRESS_STAT_BOOTOK : Nat := 0x01
def CYPRESS_STAT_IMAGERR : Nat := 0x02
def CYPRESS_STAT_FLCHK : Nat := 0x04
def CYPRESS_STAT_FLPROT : Nat := 0x08
def CYPRESS_STAT_COMCHK : Nat := 0x10
def CYPRESS_STAT_INVALKEY : Nat := 0x40
def CYPRESS_STAT_INVALCMD : Nat := 0x80
def CYPRESS_STAT_ALL : Nat := 0xFF

/-- The errno value `EINVAL` of `<errno.h>` (a system header, Linux value). -/
def EINVAL : Int := 22

/-- The errno value `EIO` of `<errno.h>` (a system header, Linux value). -/
def EIO : Int := 5

/-- Size of `struct cypress_command` and of `struct cypress_status`
(`BUILD_BUG_ON` in `cypress_open` pins both to 64). -/
def FRAME_SIZE : Nat := 64

/-- Offset of the field `key` in the packed `struct cypress_command`. -/
def OFF_KEY : Nat := 2

/-- Offset of the field `payload` in the packed `struct cypress_command`. -/
def OFF_PAYLOAD : Nat := 10

/-! ## The world outside the driver -/

/-- Outcome of one `libusb_bulk_transfer` call: the return value, the value
stored in `*transferred`, and (for a transfer on the IN endpoint) the first
two bytes left in the receive buffer. -/
structure Xfer where
  err : Int
  transferred : Int
  status0 : Nat
  status1 : Nat
deriving DecidableEq, Repr

/-- Externally visible actions of the driver. -/
inductive Event where
  | assign_key : Event
  | bulk_out (ep : Nat) (data : List Nat) (length : Nat) : Event
  | msleep (msecs : Nat) : Event
  | bulk_in (ep : Nat) (length : Nat) : Event
deriving DecidableEq, Repr

/-- The environment: `usb n` is the outcome of the `n`-th bulk transfer,
`calls` counts the transfers made so far, `trace` lists the actions so far
(oldest first). -/
structure World where
  usb : Nat → Xfer
  calls : Nat
  trace : List Event

/-- The fields of `struct cypress` that the code uses: the two endpoint
numbers and the key-assignment callback, which receives the 8-byte key
buffer and returns its new contents. -/
structure cypress where
  ep_in : Nat
  ep_out : Nat
  assign_key : List Nat → List Nat

/-- Store of consecutive bytes into a byte array starting at offset `off`
(field assignment, `memcpy`); each stored value is reduced to a byte. -/
def store_bytes : List Nat → Nat → List Nat → List Nat
  | mem, _, [] => mem
  | mem, off, b :: bs => store_bytes (mem.set off (b % 256)) (off + 1) bs

/-- The bytes that `c->assign_key(cmd.key)` leaves in the command: the
callback rewrites the 8-byte key field in place. -/
def assign_key_bytes (c : cypress) (cmd : List Nat) : List Nat :=
  let key := c.assign_key ((cmd.drop OFF_KEY).take 8)
  store_bytes cmd OFF_KEY ((List.range 8).map (fun i => key.getD i 0))

/-- The call `c->assign_key(cmd.key)`. -/
def call_assign_key (c : cypress) (cmd : List Nat) (w : World) : List Nat × World :=
  (assign_key_bytes c cmd, { w with trace := w.trace ++ [Event.assign_key] })

/-- External: `libusb_bulk_transfer` on the OUT endpoint. -/
def libusb_bulk_transfer_out (ep : Nat) (data : List Nat) (length : Nat)
    (w : World) : Xfer × World :=
  (w.usb w.calls,
   { w with calls := w.calls + 1, trace := w.trace ++ [Event.bulk_out ep data length] })

/-- External: `libusb_bulk_transfer` on the IN endpoint. -/
def libusb_bulk_transfer_in (ep : Nat) (length : Nat) (w : World) : Xfer × World :=
  (w.usb w.calls,
   { w with calls := w.calls + 1, trace := w.trace ++ [Event.bulk_in ep length] })

/-- External: `razer_msleep`. -/
def razer_msleep (msecs : Nat) (w : World) : World :=
  { w with trace := w.trace ++ [Event.msleep msecs] }

/-- Modelled from the spec: `cpu_to_be16` and the type `be16_t` come from
razer_private.h, which is not part of the sources. The data model calls the
opcode a 2-byte big-endian value, so the stored bytes are the high byte
followed by the low byte. -/
def cpu_to_be16 (v : Nat) : List Nat := [v / 256 % 256, v % 256]

/-! ## `cmd_checksum` -/

/-- Value of a `char` holding the byte `b`, converted to `unsigned int`.
When plain `char` is signed a byte of 128 or more is the negative number
`b - 256`, which converts to `2 ^ 32 + b - 256`. -/
def char_to_uint (char_signed : Bool) (b : Nat) : Nat :=
  if char_signed && decide (128 ≤ b) then 2 ^ 32 + b - 256 else b

/-- The function `cmd_checksum`. -/
def cmd_checksum (char_signed : Bool) (cmd : List Nat) : List Nat :=
  let sum := (List.range 45).foldl
    (fun sum i => (sum + char_to_uint char_signed (cmd.getD i 0)) % 2 ^ 32) 0
  cmd.set 45 ((sum &&& 0xFF) % 256)

/-! ## `cypress_send_command` -/

/-- The value of `~CYPRESS_STAT_BOOTOK`, an `int`, as a 32-bit pattern. -/
def NOT_BOOTOK : Nat := 0xFFFFFFFF ^^^ CYPRESS_STAT_BOOTOK

/-- The function `cypress_send_command`. -/
def cypress_send_command (char_signed : Bool) (c : cypress) (command : List Nat)
    (command_size : Nat) (status_mask : Nat) (w : World) : Int × World :=
  let command := cmd_checksum char_signed command
  let (out, w) := libusb_bulk_transfer_out c.ep_out command command_size w
  if out.err ≠ 0 ∨ out.transferred < 0 ∨ out.transferred.toNat ≠ command_size then
    (-1, w)
  else
    let w := razer_msleep 100 w
    let (status, w) := libusb_bulk_transfer_in c.ep_in FRAME_SIZE w
    if status.err ≠ 0 ∨ status.transferred ≠ (FRAME_SIZE : Int) then
      (-1, w)
    else
      let status_mask := (status_mask ||| CYPRESS_STAT_BLMODE) % 256
      let status_mask := (status_mask &&& NOT_BOOTOK) % 256
      let stat := ((status.status0 ||| status.status1) &&& status_mask) % 256
      if stat ≠ CYPRESS_STAT_BLMODE then
        (-1, w)
      else
        (0, w)

/-! ## The five commands -/

/-- The function `cypress_assign_default_key`. -/
def cypress_assign_default_key (key : List Nat) : List Nat :=
  store_bytes key 0 (List.range 8)

/-- The function `cypress_cmd_enterbl`. -/
def cypress_cmd_enterbl (char_signed : Bool) (c : cypress) (w : World) : Int × World :=
  let cmd := List.replicate FRAME_SIZE 0
  let cmd := store_bytes cmd 0 (cpu_to_be16 CYPRESS_CMD_ENTERBL)
  let (cmd, w) := call_assign_key c cmd w
  cypress_send_command char_signed c cmd FRAME_SIZE
    (CYPRESS_STAT_INVALKEY ||| CYPRESS_STAT_INVALCMD) w

/-- The function `cypress_cmd_exitbl`. -/
def cypress_cmd_exitbl (char_signed : Bool) (c : cypress) (w : World) : Int × World :=
  let cmd := List.replicate FRAME_SIZE 0
  let cmd := store_bytes cmd 0 (cpu_to_be16 CYPRESS_CMD_EXITBL)
  let (cmd, w) := call_assign_key c cmd w
  cypress_send_command char_signed c cmd FRAME_SIZE CYPRESS_STAT_ALL w

/-- The function `cypress_cmd_verifyfl`. -/
def cypress_cmd_verifyfl (char_signed : Bool) (c : cypress) (w : World) : Int × World :=
  let cmd := List.replicate FRAME_SIZE 0
  let cmd := store_bytes cmd 0 (cpu_to_be16 CYPRESS_CMD_VERIFYFL)
  let (cmd, w) := call_assign_key c cmd w
  cypress_send_command char_signed c cmd FRAME_SIZE CYPRESS_STAT_ALL w

/-- The function `cypress_cmd_updatechksum`. -/
def cypress_cmd_updatechksum (char_signed : Bool) (c : cypress) (w : World) : Int × World :=
  let cmd := List.replicate FRAME_SIZE 0
  let cmd := store_bytes cmd 0 (cpu_to_be16 CYPRESS_CMD_UPCHK)
  let (cmd, w) := call_assign_key c cmd w
  cypress_send_command char_signed c cmd FRAME_SIZE CYPRESS_STAT_ALL w

/-- The function `cypress_cmd_writefl`. The argument `blocknr` is converted
to `uint16_t` and `segment` to `uint8_t` at the call; `data` is the memory
the pointer `data` points to. -/
def cypress_cmd_writefl (char_signed : Bool) (c : cypress) (blocknr : Nat)
    (segment : Nat) (data : Nat → Nat) (w : World) : Int × World :=
  let blocknr := blocknr % 2 ^ 16
  let segment := segment % 256
  let cmd := List.replicate FRAME_SIZE 0
  let cmd := store_bytes cmd 0 (cpu_to_be16 CYPRESS_CMD_WRITEFL)
  let (cmd, w) := call_assign_key c cmd w
  let cmd := cmd.set (OFF_PAYLOAD + 0) ((blocknr >>> 8) % 256)
  let cmd := cmd.set (OFF_PAYLOAD + 1) (blocknr % 256)
  let cmd := cmd.set (OFF_PAYLOAD + 2) (segment % 256)
  let cmd := store_bytes cmd (OFF_PAYLOAD + 3) ((List.range 32).map data)
  cypress_send_command char_signed c cmd FRAME_SIZE CYPRESS_STAT_ALL w

/-! ## `cypress_writeflash` and `cypress_upload_image` -/

/-- The `for` loop of `cypress_writeflash`, entered with the counter at
`block` and the pointer `image` advanced by `off` bytes. The counter is an
`unsigned int` and wraps at `2 ^ 32`, so the loop of the C code need not
terminate; `fuel` bounds the number of iterations and `none` means that the
fuel ran out. -/
def cypress_writeflash_loop (char_signed : Bool) (c : cypress) (image : Nat → Nat)
    (len : Nat) : Nat → Nat → Nat → World → Option (Int × World)
  | 0, _, _, _ => none
  | fuel + 1, block, off, w =>
    if block < len / 64 then
      let (err, w) := cypress_cmd_writefl char_signed c block 0 (fun j => image (off + j)) w
      if err ≠ 0 then
        some (- EIO, w)
      else
        let off := off + 32
        let (err, w) := cypress_cmd_writefl char_signed c block 1 (fun j => image (off + j)) w
        if err ≠ 0 then
          some (- EIO, w)
        else
          let off := off + 32
          cypress_writeflash_loop char_signed c image len fuel ((block + 1) % 2 ^ 32) off w
    else
      some (0, w)

/-- The function `cypress_writeflash`. -/
def cypress_writeflash (char_signed : Bool) (c : cypress) (image : Nat → Nat)
    (len : Nat) (fuel : Nat) (w : World) : Option (Int × World) :=
  if len % 64 ≠ 0 then
    some (- EINVAL, w)
  else
    cypress_writeflash_loop char_signed c image len fuel 0 0 w

/-- The function `cypress_upload_image`. -/
def cypress_upload_image (char_signed : Bool) (c : cypress) (image : Nat → Nat)
    (len : Nat) (fuel : Nat) (w : World) : Option (Int × World) :=
  if len % 64 ≠ 0 then
    some (- EINVAL, w)
  else
    let (err, w) := cypress_cmd_enterbl char_signed c w
    if err ≠ 0 then
      some (err, w)
    else
      match cypress_writeflash char_signed c image len fuel w with
      | none => none
      | some (err, w) =>
        if err ≠ 0 then
          some (err, w)
        else
          let (err, w) := cypress_cmd_verifyfl char_signed c w
          if err ≠ 0 then
            some (err, w)
          else
            let (err, w) := cypress_cmd_updatechksum char_signed c w
            if err ≠ 0 then
              some (err, w)
            else
              let (err, w) := cypress_cmd_exitbl char_signed c w
              if err ≠ 0 then
                some (err, w)
              else
                some (0, w)

/-! ## Vocabulary of the statements -/

/-- The frames handed to the OUT endpoint, oldest first. -/
def sent : List Event → List (List Nat)
  | [] => []
  | Event.bulk_out _ data _ :: es => data :: sent es
  | _ :: es => sent es

/-- Number of invocations of the key-assignment callback. -/
def key_calls : List Event → Nat
  | [] => 0
  | Event.assign_key :: es => key_calls es + 1
  | _ :: es => key_calls es

/-- The 16-bit opcode at the head of a frame, read big-endian. -/
def opcode (frame : List Nat) : Nat := frame.getD 0 0 * 256 + frame.getD 1 0

/-- Sum of the bytes of a frame at offsets 0..44. -/
def sum45 (frame : List Nat) : Nat := ((List.range 45).map (fun i => frame.getD i 0)).sum

/-- A frame carries a valid checksum: byte 45 is the low byte of `sum45`. -/
def checksum_ok (frame : List Nat) : Prop := frame.getD 45 0 = sum45 frame % 256

/-- A transfer that reports no error and 64 transferred bytes. -/
def moved64 (x : Xfer) : Prop := x.err = 0 ∧ x.transferred = 64

/-- The status validation law of the spec for the command mask `M`. -/
def status_ok (M s0 s1 : Nat) : Prop :=
  (s0 ||| s1) &&& ((M ||| 0x20) &&& 0xFE) = 0x20

/-- The command whose OUT transfer is transfer number `n` is accepted: both
transfers move 64 bytes and the status passes validation under mask `M`. -/
def cmd_ok (M : Nat) (usb : Nat → Xfer) (n : Nat) : Prop :=
  moved64 (usb n) ∧ moved64 (usb (n + 1)) ∧
    status_ok M (usb (n + 1)).status0 (usb (n + 1)).status1

instance (x : Xfer) : Decidable (moved64 x) := by unfold moved64; infer_instance
instance (M s0 s1 : Nat) : Decidable (status_ok M s0 s1) := by unfold status_ok; infer_instance
instance (M : Nat) (usb : Nat → Xfer) (n : Nat) : Decidable (cmd_ok M usb n) := by
  unfold cmd_ok; infer_instance
instance (frame : List Nat) : Decidable (checksum_ok frame) := by
  unfold checksum_ok; infer_instance

/-- World after a command whose OUT transfer failed. -/
def after_out (c : cypress) (frame : List Nat) (w : World) : World :=
  { w with calls := w.calls + 1,
           trace := w.trace ++ [Event.bulk_out c.ep_out frame FRAME_SIZE] }

/-- World after a command that went as far as the status read. -/
def after_in (c : cypress) (frame : List Nat) (w : World) : World :=
  { w with calls := w.calls + 2,
           trace := w.trace ++ [Event.bulk_out c.ep_out frame FRAME_SIZE,
             Event.msleep 100, Event.bulk_in c.ep_in FRAME_SIZE] }

/-- A world in which every transfer moves 64 bytes and every status reply
reads `status0 = s0`, `status1 = s1`; no transfer made yet. -/
def reply_world (s0 s1 : Nat) : World :=
  { usb := fun _ => { err := 0, transferred := 64, status0 := s0, status1 := s1 },
    calls := 0, trace := [] }

/-- A session with the endpoints of `cypress_open` and the default key. -/
def default_session : cypress :=
  { ep_in := 0x81, ep_out := 0x02, assign_key := cypress_assign_default_key }

/-! ## The command sequence of an upload -/

/-- The command buffer of a payload-less command when it reaches
`cypress_send_command`: zeroed, opcode stored, key assigned. -/
def plain_frame (c : cypress) (op : Nat) : List Nat :=
  assign_key_bytes c (store_bytes (List.replicate FRAME_SIZE 0) 0 (cpu_to_be16 op))

/-- The command buffer of `cypress_cmd_writefl` when it reaches
`cypress_send_command`. -/
def writefl_frame (c : cypress) (blocknr segment : Nat) (data : Nat → Nat) : List Nat :=
  store_bytes
    ((((plain_frame c CYPRESS_CMD_WRITEFL).set (OFF_PAYLOAD + 0)
        (((blocknr % 2 ^ 16) >>> 8) % 256)).set (OFF_PAYLOAD + 1)
        ((blocknr % 2 ^ 16) % 256)).set (OFF_PAYLOAD + 2) ((segment % 256) % 256))
    (OFF_PAYLOAD + 3) ((List.range 32).map data)

/-- One command of a sequence: the buffer handed to `cypress_send_command`,
the status mask, and the value the caller returns when the command fails. -/
structure Cmd where
  frame : List Nat
  mask : Nat
  code : Int

/-- What every command function does after building its buffer: the key
callback is invoked, then `cypress_send_command` runs. -/
def exchange (char_signed : Bool) (c : cypress) (frame : List Nat) (mask : Nat)
    (w : World) : Int × World :=
  cypress_send_command char_signed c frame FRAME_SIZE mask
    { w with trace := w.trace ++ [Event.assign_key] }

/-- Commands performed one after the other, stopping at the first failure. -/
def run (char_signed : Bool) (c : cypress) : List Cmd → World → Int × World
  | [], w => (0, w)
  | p :: rest, w =>
    if (exchange char_signed c p.frame p.mask w).1 ≠ 0 then
      (p.code, (exchange char_signed c p.frame p.mask w).2)
    else
      run char_signed c rest (exchange char_signed c p.frame p.mask w).2

/-- The WRITE_FLASH commands of `n` consecutive blocks starting with block
number `block` at image offset `off`: two per block, segment 0 then 1. -/
def write_cmds (c : cypress) (image : Nat → Nat) : Nat → Nat → Nat → List Cmd
  | 0, _, _ => []
  | n + 1, block, off =>
    { frame := writefl_frame c block 0 (fun j => image (off + j)),
      mask := CYPRESS_STAT_ALL, code := - EIO } ::
    { frame := writefl_frame c block 1 (fun j => image (off + 32 + j)),
      mask := CYPRESS_STAT_ALL, code := - EIO } ::
    write_cmds c image n (block + 1) (off + 32 + 32)

/-- The full command sequence of an upload of `N` blocks: enter, the writes,
verify, update-checksum, exit. -/
def upload_cmds (c : cypress) (image : Nat → Nat) (N : Nat) : List Cmd :=
  { frame := plain_frame c CYPRESS_CMD_ENTERBL,
    mask := CYPRESS_STAT_INVALKEY ||| CYPRESS_STAT_INVALCMD, code := -1 } ::
  (write_cmds c image N 0 0 ++
    [{ frame := plain_frame c CYPRESS_CMD_VERIFYFL, mask := CYPRESS_STAT_ALL, code := -1 },
     { frame := plain_frame c CYPRESS_CMD_UPCHK, mask := CYPRESS_STAT_ALL, code := -1 },
     { frame := plain_frame c CYPRESS_CMD_EXITBL, mask := CYPRESS_STAT_ALL, code := -1 }])

/-- The frames of the full command sequence as they appear on the wire
(checksum stored). -/
def upload_frames (char_signed : Bool) (c : cypress) (image : Nat → Nat) (N : Nat) :
    List (List Nat) :=
  (upload_cmds c image N).map (fun p => cmd_checksum char_signed p.frame)

/-- The status mask of the `j`-th command of an upload: `cypress_cmd_enterbl`
passes `INVALKEY | INVALCMD`, every other command `CYPRESS_STAT_ALL`. -/
def upload_mask (j : Nat) : Nat :=
  if j = 0 then CYPRESS_STAT_INVALKEY ||| CYPRESS_STAT_INVALCMD else CYPRESS_STAT_ALL

/-- The `j`-th command of an upload is accepted by the device of world `w`,
given that all the commands before it were (so that its two transfers are
transfers number `w.calls + 2 * j` and `w.calls + 2 * j + 1`). -/
def accepted (w : World) (j : Nat) : Prop :=
  cmd_ok (upload_mask j) w.usb (w.calls + 2 * j)

instance (w : World) (j : Nat) : Decidable (accepted w j) := by
  unfold accepted; infer_instance

/-- The actions of one accepted command whose wire frame is `f`: key
callback, OUT transfer, the 100 ms sleep, IN transfer. -/
def cmd_events (c : cypress) (f : List Nat) : List Event :=
  [Event.assign_key, Event.bulk_out c.ep_out f FRAME_SIZE, Event.msleep 100,
   Event.bulk_in c.ep_in FRAME_SIZE]

/-- An image whose byte at index `i` is `i % 256`. -/
def ramp_image : Nat → Nat := fun i => i % 256

/-- A world in which the first `n0` transfers move 64 bytes with status
`(0x20, 0x00)` and every later transfer moves 64 bytes with status
`(s0, 0x00)`; no transfer made yet. -/
def status_from_world (n0 s0 : Nat) : World :=
  { usb := fun n => { err := 0, transferred := 64,
                      status0 := if n < n0 then 0x20 else s0, status1 := 0x00 },
    calls := 0, trace := [] }

/-! ## `cypress_print_status` -/

/-- The function `cypress_print_one_status`; the pair is `(*ctx, buf)` and
`strcat` is string concatenation. -/
def cypress_print_one_status (st : Nat × String) (message : String) : Nat × String :=
  let buf := if st.1 ≠ 0 then st.2 ++ ", " else st.2
  (st.1 + 1, buf ++ message)

/-- The contents of `buf` in `cypress_print_status` when the seven tests are
done; the parameter `status` is a `uint8_t`. -/
def cypress_print_status_buf (status : Nat) : String :=
  let status := status % 256
  let st : Nat × String := (0, "")
  let st := if status &&& CYPRESS_STAT_BLMODE = 0 then
    cypress_print_one_status st "Not in bootloader mode" else st
  let st := if status &&& CYPRESS_STAT_IMAGERR ≠ 0 then
    cypress_print_one_status st "Image verify error" else st
  let st := if status &&& CYPRESS_STAT_FLCHK ≠ 0 then
    cypress_print_one_status st "Flash checksum error" else st
  let st := if status &&& CYPRESS_STAT_FLPROT ≠ 0 then
    cypress_print_one_status st "Flash protection error" else st
  let st := if status &&& CYPRESS_STAT_COMCHK ≠ 0 then
    cypress_print_one_status st "Communication checksum error" else st
  let st := if status &&& CYPRESS_STAT_INVALKEY ≠ 0 then
    cypress_print_one_status st "Invalid bootloader key" else st
  let st := if status &&& CYPRESS_STAT_INVALCMD ≠ 0 then
    cypress_print_one_status st "Invalid command" else st
  st.2

/-- The function `cypress_print_status`: `true` in the first component means
that the text goes to `razer_error`, `false` that it goes to `razer_info`;
the second component is the buffer printed after "Bootloader status: ". -/
def cypress_print_status (status : Nat) (error : Int) : Bool × String :=
  (decide (error ≠ 0), cypress_print_status_buf status)

/-- The value `stat` that `cypress_send_command` computes from the mask and
the two status bytes (the three assignments before the final test). -/
def send_command_stat (status_mask s0 s1 : Nat) : Nat :=
  let status_mask := (status_mask ||| CYPRESS_STAT_BLMODE) % 256
  let status_mask := (status_mask &&& NOT_BOOTOK) % 256
  ((s0 ||| s1) &&& status_mask) % 256

/-- The diagnostic of the final test of `cypress_send_command`: when `stat`
differs from `CYPRESS_STAT_BLMODE` the code calls
`cypress_print_status(stat, 1)`, otherwise it reports nothing. -/
def send_command_report (status_mask s0 s1 : Nat) : Option (Bool × String) :=
  if send_command_stat status_mask s0 s1 ≠ CYPRESS_STAT_BLMODE then
    some (cypress_print_status (send_command_stat status_mask s0 s1) 1)
  else
    none

/-- The cause list of the spec for a masked status `observed`: the messages
whose condition holds, in the order of the status table. -/
def cause_list (observed : Nat) : List String :=
  (if observed &&& 0x20 = 0 then ["Not in bootloader mode"] else []) ++
  (if observed &&& 0x02 ≠ 0 then ["Image verify error"] else []) ++
  (if observed &&& 0x04 ≠ 0 then ["Flash checksum error"] else []) ++
  (if observed &&& 0x08 ≠ 0 then ["Flash protection error"] else []) ++
  (if observed &&& 0x10 ≠ 0 then ["Communication checksum error"] else []) ++
  (if observed &&& 0x40 ≠ 0 then ["Invalid bootloader key"] else []) ++
  (if observed &&& 0x80 ≠ 0 then ["Invalid command"] else [])

/-! ## Fields of `struct cypress_command` -/

/-- The field `key` of a command: 8 bytes after the 2-byte `command`. -/
def key_field (cmd : List Nat) : List Nat := (cmd.drop OFF_KEY).take 8

/-- The field `payload` of a command: the 54 bytes after `command` and `key`. -/
def payload_field (cmd : List Nat) : List Nat := (cmd.drop OFF_PAYLOAD).take 54

/-- The function `cypress_open`. After the two compile-time size checks its
first statement is an unconditional `return -1` (marked "FIXME: Does not
work, yet."), so the statements that follow it in the source (storing the
key callback, claiming the interface, setting the endpoints) are never
executed. The result is the return value, the session object and the world
after the call; `assign_key` is `none` for a null pointer. -/
def cypress_open (c : cypress) (_dev : Nat) (_assign_key : Option (List Nat → List Nat))
    (w : World) : Int × cypress × World :=
  (-1, c, w)

/-- The wire layout of a payload-less command with opcode `op` sent through
session `c`: 64 bytes, the opcode big-endian in bytes 0..1 (the high byte of
all four opcodes is `0xFF`), the bytes that the key callback writes into the
zeroed key buffer in bytes 2..9, the checksum in byte 45 and zero in every
other byte from offset 10 on. -/
def plain_layout (c : cypress) (op : Nat) (f : List Nat) : Prop :=
  f.length = 64 ∧ f.getD 0 0 = 0xFF ∧ f.getD 1 0 = op % 256 ∧
  (∀ i, i < 8 → f.getD (OFF_KEY + i) 0 = (c.assign_key (List.replicate 8 0)).getD i 0) ∧
  f.getD 45 0 = sum45 f % 256 ∧
  (∀ i, 10 ≤ i → i < 64 → i ≠ 45 → f.getD i 0 = 0)

/-- A world whose first transfer has outcome `out` and whose later transfers
all have outcome `inn`; no transfer made yet. -/
def xfer_world (out inn : Xfer) : World :=
  { usb := fun n => if n = 0 then out else inn, calls := 0, trace := [] }

/-! ## The write loop observed while it runs -/

/-- The `for` loop of `cypress_writeflash` once more, keeping the world when
the fuel runs out: the first component is `none` while the loop is still
running and `some r` once the function has returned `r`. It differs from
`cypress_writeflash_loop` only in what it gives back at fuel 0, so that the
frames sent by a call that never returns can be stated. -/
def cypress_writeflash_steps (char_signed : Bool) (c : cypress) (image : Nat → Nat)
    (len : Nat) : Nat → Nat → Nat → World → Option Int × World
  | 0, _, _, w => (none, w)
  | fuel + 1, block, off, w =>
    if block < len / 64 then
      let (err, w) := cypress_cmd_writefl char_signed c block 0 (fun j => image (off + j)) w
      if err ≠ 0 then
        (some (- EIO), w)
      else
        let off := off + 32
        let (err, w) := cypress_cmd_writefl char_signed c block 1 (fun j => image (off + j)) w
        if err ≠ 0 then
          (some (- EIO), w)
        else
          let off := off + 32
          cypress_writeflash_steps char_signed c image len fuel ((block + 1) % 2 ^ 32) off w
    else
      (some 0, w)

/-- The result of a call from an observation: a value once the call has
returned, nothing while it is still running. -/
def returned (x : Option Int × World) : Option (Int × World) :=
  match x.1 with
  | some r => some (r, x.2)
  | none => none

/-! # Proofs -/

/-! ## Status validation -/

theorem mod_256_eq_land (x : Nat) : x % 256 = x &&& 255 := by
  have h := Nat.and_pow_two_sub_one_eq_mod x 8
  simpa using h.symm

theorem effective_mask_eq (M : Nat) :
    ((M ||| CYPRESS_STAT_BLMODE) % 256 &&& NOT_BOOTOK) % 256 = (M ||| 0x20) &&& 0xFE := by
  rw [mod_256_eq_land, mod_256_eq_land, Nat.land_assoc, Nat.land_assoc]
  rfl

theorem stat_eq (M s0 s1 : Nat) :
    ((s0 ||| s1) &&& (((M ||| CYPRESS_STAT_BLMODE) % 256 &&& NOT_BOOTOK) % 256)) % 256
      = (s0 ||| s1) &&& ((M ||| 0x20) &&& 0xFE) := by
  rw [effective_mask_eq]
  apply Nat.mod_eq_of_lt
  have h1 : (s0 ||| s1) &&& ((M ||| 0x20) &&& 0xFE) ≤ (M ||| 0x20) &&& 0xFE := Nat.and_le_right
  have h2 : (M ||| 0x20) &&& 0xFE ≤ 0xFE := Nat.and_le_right
  omega

theorem out_check_iff (x : Xfer) :
    (x.err ≠ 0 ∨ x.transferred < 0 ∨ x.transferred.toNat ≠ FRAME_SIZE) ↔ ¬ moved64 x := by
  unfold moved64 FRAME_SIZE
  constructor
  · rintro h ⟨h1, h2⟩
    rcases h with h | h | h
    · exact h h1
    · omega
    · apply h; rw [h2]; rfl
  · intro h
    by_cases h1 : x.err = 0
    · right
      by_cases h2 : x.transferred < 0
      · exact Or.inl h2
      · right
        intro h3
        apply h
        refine ⟨h1, ?_⟩
        omega
    · exact Or.inl h1

theorem in_check_iff (x : Xfer) :
    (x.err ≠ 0 ∨ x.transferred ≠ (FRAME_SIZE : Int)) ↔ ¬ moved64 x := by
  unfold moved64 FRAME_SIZE
  constructor
  · rintro h ⟨h1, h2⟩
    rcases h with h | h
    · exact h h1
    · exact h h2
  · intro h
    by_cases h1 : x.err = 0
    · right
      intro h2
      exact h ⟨h1, h2⟩
    · exact Or.inl h1

theorem send_command_eq (sgn : Bool) (c : cypress) (cmd : List Nat) (M : Nat) (w : World) :
    cypress_send_command sgn c cmd FRAME_SIZE M w =
      if moved64 (w.usb w.calls) then
        if moved64 (w.usb (w.calls + 1)) ∧
            status_ok M (w.usb (w.calls + 1)).status0 (w.usb (w.calls + 1)).status1 then
          (0, after_in c (cmd_checksum sgn cmd) w)
        else
          (-1, after_in c (cmd_checksum sgn cmd) w)
      else
        (-1, after_out c (cmd_checksum sgn cmd) w) := by
  unfold cypress_send_command
  simp only [libusb_bulk_transfer_out, libusb_bulk_transfer_in, razer_msleep, out_check_iff,
    in_check_iff, stat_eq]
  by_cases h1 : moved64 (w.usb w.calls)
  · by_cases h2 : moved64 (w.usb (w.calls + 1))
    · by_cases h3 : status_ok M (w.usb (w.calls + 1)).status0 (w.usb (w.calls + 1)).status1
      · have h3c := h3
        unfold status_ok at h3c
        simp [h1, h2, h3, h3c, after_in, CYPRESS_STAT_BLMODE]
      · have h3c := h3
        unfold status_ok at h3c
        simp [h1, h2, h3, h3c, after_in, CYPRESS_STAT_BLMODE]
    · simp [h1, h2, after_in]
  · simp [h1, after_out]

/-! ## Checksum -/

theorem char_sum_step (sgn : Bool) (s b : Nat) (hb : b < 256) :
    ((s + char_to_uint sgn b) % 2 ^ 32) % 256 = (s + b) % 256 := by
  unfold char_to_uint
  split <;> omega

theorem checksum_fold (sgn : Bool) (f : List Nat) (hb : ∀ i, f.getD i 0 < 256) :
    ∀ (l : List Nat) (s : Nat),
      (l.foldl (fun sum i => (sum + char_to_uint sgn (f.getD i 0)) % 2 ^ 32) s) % 256
        = (s + (l.map (fun i => f.getD i 0)).sum) % 256 := by
  intro l
  induction l with
  | nil => intro s; simp
  | cons i l ih =>
    intro s
    simp only [List.foldl_cons, List.map_cons, List.sum_cons]
    rw [ih]
    have h := char_sum_step sgn s (f.getD i 0) (hb i)
    omega

theorem getD_lt_of_bytes (f : List Nat) (hb : ∀ b ∈ f, b < 256) (i : Nat) :
    f.getD i 0 < 256 := by
  rw [List.getD_eq_getElem?_getD]
  by_cases h : i < f.length
  · rw [List.getElem?_eq_getElem h]
    exact hb _ (List.getElem_mem h)
  · rw [List.getElem?_eq_none (by omega)]
    decide

/-- The byte that `cmd_checksum` stores at offset 45. -/
theorem checksum_byte (sgn : Bool) (f : List Nat) (hb : ∀ b ∈ f, b < 256) :
    (((List.range 45).foldl
      (fun sum i => (sum + char_to_uint sgn (f.getD i 0)) % 2 ^ 32) 0) &&& 0xFF) % 256
      = sum45 f % 256 := by
  have h := checksum_fold sgn f (getD_lt_of_bytes f hb) (List.range 45) 0
  rw [show (0xFF : Nat) = 255 from rfl, ← mod_256_eq_land, Nat.mod_mod, h]
  simp [sum45]

theorem cmd_checksum_byte45 (sgn : Bool) (f : List Nat) (hlen : f.length = 64)
    (hb : ∀ b ∈ f, b < 256) :
    (cmd_checksum sgn f).getD 45 0 = sum45 f % 256 := by
  unfold cmd_checksum
  simp only []
  rw [checksum_byte sgn f hb]
  simp [List.getD_eq_getElem?_getD, hlen]

theorem cmd_checksum_eq_set (sgn : Bool) (f : List Nat) :
    cmd_checksum sgn f = f.set 45 ((((List.range 45).foldl
      (fun sum i => (sum + char_to_uint sgn (f.getD i 0)) % 2 ^ 32) 0) &&& 0xFF) % 256) := rfl

theorem getD_set_of_ne (f : List Nat) (i j x : Nat) (h : i ≠ j) :
    (f.set j x).getD i 0 = f.getD i 0 := by
  simp only [List.getD_eq_getElem?_getD]
  rw [List.getElem?_set_ne (Ne.symm h)]

/-- The accumulation loop of `cmd_checksum` never looks at offset 45. -/
theorem checksum_fold_set (sgn : Bool) (f : List Nat) (x : Nat) :
    ∀ (l : List Nat), (∀ i ∈ l, i < 45) → ∀ s : Nat,
      l.foldl (fun sum i => (sum + char_to_uint sgn ((f.set 45 x).getD i 0)) % 2 ^ 32) s
        = l.foldl (fun sum i => (sum + char_to_uint sgn (f.getD i 0)) % 2 ^ 32) s := by
  intro l
  induction l with
  | nil => intro _ s; rfl
  | cons i l ih =>
    intro hl s
    simp only [List.foldl_cons]
    have hi : i < 45 := hl i (List.mem_cons_self _ _)
    rw [getD_set_of_ne f i 45 x (by omega)]
    exact ih (fun j hj => hl j (List.mem_cons_of_mem _ hj)) _

theorem cmd_checksum_idem (sgn : Bool) (f : List Nat) :
    cmd_checksum sgn (cmd_checksum sgn f) = cmd_checksum sgn f := by
  rw [cmd_checksum_eq_set sgn (cmd_checksum sgn f)]
  rw [cmd_checksum_eq_set sgn f]
  rw [checksum_fold_set sgn f _ (List.range 45) (fun i hi => List.mem_range.mp hi) 0]
  rw [List.set_set]

theorem sum45_set (f : List Nat) (x : Nat) : sum45 (f.set 45 x) = sum45 f := by
  unfold sum45
  congr 1
  apply List.map_congr_left
  intro i hi
  have h : i < 45 := List.mem_range.mp hi
  exact getD_set_of_ne f i 45 x (by omega)

/-! ## Commands and command sequences -/

theorem cmd_enterbl_eq (sgn : Bool) (c : cypress) (w : World) :
    cypress_cmd_enterbl sgn c w = exchange sgn c (plain_frame c CYPRESS_CMD_ENTERBL)
      (CYPRESS_STAT_INVALKEY ||| CYPRESS_STAT_INVALCMD) w := rfl

theorem cmd_exitbl_eq (sgn : Bool) (c : cypress) (w : World) :
    cypress_cmd_exitbl sgn c w = exchange sgn c (plain_frame c CYPRESS_CMD_EXITBL)
      CYPRESS_STAT_ALL w := rfl

theorem cmd_verifyfl_eq (sgn : Bool) (c : cypress) (w : World) :
    cypress_cmd_verifyfl sgn c w = exchange sgn c (plain_frame c CYPRESS_CMD_VERIFYFL)
      CYPRESS_STAT_ALL w := rfl

theorem cmd_updatechksum_eq (sgn : Bool) (c : cypress) (w : World) :
    cypress_cmd_updatechksum sgn c w = exchange sgn c (plain_frame c CYPRESS_CMD_UPCHK)
      CYPRESS_STAT_ALL w := rfl

theorem cmd_writefl_eq (sgn : Bool) (c : cypress) (blocknr segment : Nat) (data : Nat → Nat)
    (w : World) :
    cypress_cmd_writefl sgn c blocknr segment data w
      = exchange sgn c (writefl_frame c blocknr segment data) CYPRESS_STAT_ALL w := rfl

theorem sent_append (a b : List Event) : sent (a ++ b) = sent a ++ sent b := by
  induction a with
  | nil => rfl
  | cons e a ih => cases e <;> simp [sent, ih]

theorem key_calls_append (a b : List Event) : key_calls (a ++ b) = key_calls a + key_calls b := by
  induction a with
  | nil => simp [key_calls]
  | cons e a ih =>
    cases e <;> simp [key_calls, ih]
    omega

/-- A command that the device accepts. -/
theorem exchange_ok (sgn : Bool) (c : cypress) (f : List Nat) (M : Nat) (w : World)
    (h : cmd_ok M w.usb w.calls) :
    (exchange sgn c f M w).1 = 0 ∧
    (exchange sgn c f M w).2.usb = w.usb ∧
    (exchange sgn c f M w).2.calls = w.calls + 2 ∧
    sent (exchange sgn c f M w).2.trace = sent w.trace ++ [cmd_checksum sgn f] ∧
    key_calls (exchange sgn c f M w).2.trace = key_calls w.trace + 1 ∧
    (exchange sgn c f M w).2.trace = w.trace ++ cmd_events c (cmd_checksum sgn f) := by
  obtain ⟨h1, h2, h3⟩ := h
  unfold exchange
  rw [send_command_eq]
  simp only [if_pos h1, if_pos (And.intro h2 h3)]
  simp [after_in, sent_append, key_calls_append, sent, key_calls, cmd_events]

/-- A command that the device rejects, at either transfer or by its status. -/
theorem exchange_fail (sgn : Bool) (c : cypress) (f : List Nat) (M : Nat) (w : World)
    (h : ¬ cmd_ok M w.usb w.calls) :
    (exchange sgn c f M w).1 = -1 ∧
    (exchange sgn c f M w).2.usb = w.usb ∧
    sent (exchange sgn c f M w).2.trace = sent w.trace ++ [cmd_checksum sgn f] ∧
    key_calls (exchange sgn c f M w).2.trace = key_calls w.trace + 1 := by
  unfold exchange
  rw [send_command_eq]
  by_cases h1 : moved64 (w.usb w.calls)
  · have h2 : ¬ (moved64 (w.usb (w.calls + 1)) ∧
        status_ok M (w.usb (w.calls + 1)).status0 (w.usb (w.calls + 1)).status1) :=
      fun h23 => h ⟨h1, h23.1, h23.2⟩
    simp only [if_pos h1, if_neg h2]
    simp [after_in, sent_append, key_calls_append, sent, key_calls]
  · simp only [if_neg h1]
    simp [after_out, sent_append, key_calls_append, sent, key_calls]


theorem run_append (sgn : Bool) (c : cypress) (a b : List Cmd) :
    (∀ p ∈ a, p.code ≠ 0) → ∀ w : World, run sgn c (a ++ b) w =
      if (run sgn c a w).1 ≠ 0 then run sgn c a w else run sgn c b (run sgn c a w).2 := by
  induction a with
  | nil => intro _ w; simp [run]
  | cons p a ih =>
    intro hc w
    have hp : p.code ≠ 0 := hc p (List.mem_cons_self _ _)
    simp only [List.cons_append, run]
    by_cases h : (exchange sgn c p.frame p.mask w).1 ≠ 0
    · simp only [if_pos h]
      rw [if_pos hp]
    · simp only [if_neg h]
      exact ih (fun q hq => hc q (List.mem_cons_of_mem _ hq)) _

/-- Every command accepted: the whole sequence is sent and the result is 0. -/
theorem run_ok (sgn : Bool) (c : cypress) (cmds : List Cmd) :
    ∀ w : World, (∀ j p, cmds[j]? = some p → cmd_ok p.mask w.usb (w.calls + 2 * j)) →
      (run sgn c cmds w).1 = 0 ∧
      (run sgn c cmds w).2.usb = w.usb ∧
      (run sgn c cmds w).2.calls = w.calls + 2 * cmds.length ∧
      sent (run sgn c cmds w).2.trace
        = sent w.trace ++ cmds.map (fun p => cmd_checksum sgn p.frame) ∧
      key_calls (run sgn c cmds w).2.trace = key_calls w.trace + cmds.length ∧
      (run sgn c cmds w).2.trace
        = w.trace ++ cmds.flatMap (fun p => cmd_events c (cmd_checksum sgn p.frame)) := by
  induction cmds with
  | nil => intro w _; simp [run]
  | cons p rest ih =>
    intro w h
    have h0 : cmd_ok p.mask w.usb w.calls := by simpa using h 0 p (by simp)
    obtain ⟨e1, e2, e3, e4, e5, e6⟩ := exchange_ok sgn c p.frame p.mask w h0
    have hrest : ∀ j q, rest[j]? = some q →
        cmd_ok q.mask (exchange sgn c p.frame p.mask w).2.usb
          ((exchange sgn c p.frame p.mask w).2.calls + 2 * j) := by
      intro j q hq
      rw [e2, e3]
      have := h (j + 1) q (by simpa using hq)
      rw [show w.calls + 2 + 2 * j = w.calls + 2 * (j + 1) by ring]
      exact this
    obtain ⟨r1, r2, r3, r4, r5, r6⟩ := ih _ hrest
    simp only [run, e1, ne_eq, not_true_eq_false, if_false]
    refine ⟨r1, by rw [r2, e2], by rw [r3, e3, List.length_cons]; ring, ?_, ?_, ?_⟩
    · rw [r4, e4]; simp
    · rw [r5, e5, List.length_cons]; ring
    · rw [r6, e6]; simp

/-- Commands `0 .. k-1` accepted and command `k` rejected: exactly the first
`k + 1` commands are sent and the result is the code of command `k`. -/
theorem run_fail (sgn : Bool) (c : cypress) (cmds : List Cmd) :
    ∀ (w : World) (k : Nat) (p : Cmd), cmds[k]? = some p →
      (∀ j q, j < k → cmds[j]? = some q → cmd_ok q.mask w.usb (w.calls + 2 * j)) →
      ¬ cmd_ok p.mask w.usb (w.calls + 2 * k) →
      (run sgn c cmds w).1 = p.code ∧
      (run sgn c cmds w).2.usb = w.usb ∧
      sent (run sgn c cmds w).2.trace
        = sent w.trace ++ (cmds.take (k + 1)).map (fun p => cmd_checksum sgn p.frame) ∧
      key_calls (run sgn c cmds w).2.trace = key_calls w.trace + (k + 1) := by
  induction cmds with
  | nil => intro w k p h; simp at h
  | cons q rest ih =>
    intro w k p hk hlt hno
    cases k with
    | zero =>
      have hq : q = p := by simpa using hk
      subst hq
      obtain ⟨e1, e2, e4, e5⟩ := exchange_fail sgn c q.frame q.mask w (by simpa using hno)
      have hne : (exchange sgn c q.frame q.mask w).1 ≠ 0 := by rw [e1]; decide
      have hrun : run sgn c (q :: rest) w = (q.code, (exchange sgn c q.frame q.mask w).2) := by
        simp only [run, if_pos hne]
      rw [hrun]
      exact ⟨rfl, e2, by rw [e4]; simp, by rw [e5]⟩
    | succ k =>
      have h0 : cmd_ok q.mask w.usb w.calls := by simpa using hlt 0 q (by omega) (by simp)
      obtain ⟨e1, e2, e3, e4, e5, _⟩ := exchange_ok sgn c q.frame q.mask w h0
      have hk2 : rest[k]? = some p := by simpa using hk
      have hlt2 : ∀ j r, j < k → rest[j]? = some r →
          cmd_ok r.mask (exchange sgn c q.frame q.mask w).2.usb
            ((exchange sgn c q.frame q.mask w).2.calls + 2 * j) := by
        intro j r hj hr
        rw [e2, e3]
        have := hlt (j + 1) r (by omega) (by simpa using hr)
        rw [show w.calls + 2 + 2 * j = w.calls + 2 * (j + 1) by ring]
        exact this
      have hno2 : ¬ cmd_ok p.mask (exchange sgn c q.frame q.mask w).2.usb
            ((exchange sgn c q.frame q.mask w).2.calls + 2 * k) := by
        rw [e2, e3, show w.calls + 2 + 2 * k = w.calls + 2 * (k + 1) by ring]
        exact hno
      obtain ⟨r1, r2, r4, r5⟩ := ih _ k p hk2 hlt2 hno2
      simp only [run, e1, ne_eq, not_true_eq_false, if_false]
      refine ⟨r1, by rw [r2, e2], ?_, ?_⟩
      · rw [r4, e4]; simp
      · rw [r5, e5]; ring


theorem exchange_code (sgn : Bool) (c : cypress) (f : List Nat) (M : Nat) (w : World)
    (h : (exchange sgn c f M w).1 ≠ 0) : (exchange sgn c f M w).1 = -1 := by
  by_cases hok : cmd_ok M w.usb w.calls
  · exact absurd (exchange_ok sgn c f M w hok).1 h
  · exact (exchange_fail sgn c f M w hok).1

theorem writeflash_loop_step (sgn : Bool) (c : cypress) (image : Nat → Nat) (len : Nat)
    (f block off : Nat) (w : World) (hlt : block < len / 64) :
    cypress_writeflash_loop sgn c image len (f + 1) block off w =
      if (exchange sgn c (writefl_frame c block 0 (fun j => image (off + j)))
          CYPRESS_STAT_ALL w).1 ≠ 0 then
        some (- EIO, (exchange sgn c (writefl_frame c block 0 (fun j => image (off + j)))
          CYPRESS_STAT_ALL w).2)
      else if (exchange sgn c (writefl_frame c block 1 (fun j => image (off + 32 + j)))
          CYPRESS_STAT_ALL (exchange sgn c (writefl_frame c block 0 (fun j => image (off + j)))
            CYPRESS_STAT_ALL w).2).1 ≠ 0 then
        some (- EIO, (exchange sgn c (writefl_frame c block 1 (fun j => image (off + 32 + j)))
          CYPRESS_STAT_ALL (exchange sgn c (writefl_frame c block 0 (fun j => image (off + j)))
            CYPRESS_STAT_ALL w).2).2)
      else
        cypress_writeflash_loop sgn c image len f ((block + 1) % 2 ^ 32) (off + 32 + 32)
          (exchange sgn c (writefl_frame c block 1 (fun j => image (off + 32 + j)))
            CYPRESS_STAT_ALL (exchange sgn c (writefl_frame c block 0 (fun j => image (off + j)))
              CYPRESS_STAT_ALL w).2).2 := by
  rw [cypress_writeflash_loop, if_pos hlt]
  rfl

theorem run_cons (sgn : Bool) (c : cypress) (f : List Nat) (M : Nat) (k : Int)
    (rest : List Cmd) (w : World) :
    run sgn c ({ frame := f, mask := M, code := k } :: rest) w =
      if (exchange sgn c f M w).1 ≠ 0 then
        (k, (exchange sgn c f M w).2)
      else
        run sgn c rest (exchange sgn c f M w).2 := rfl

theorem write_cmds_succ (c : cypress) (image : Nat → Nat) (n block off : Nat) :
    write_cmds c image (n + 1) block off =
      { frame := writefl_frame c block 0 (fun j => image (off + j)),
        mask := CYPRESS_STAT_ALL, code := - EIO } ::
      { frame := writefl_frame c block 1 (fun j => image (off + 32 + j)),
        mask := CYPRESS_STAT_ALL, code := - EIO } ::
      write_cmds c image n (block + 1) (off + 32 + 32) := rfl

theorem writeflash_loop_eq (sgn : Bool) (c : cypress) (image : Nat → Nat) (len : Nat)
    (hlen : len / 64 < 2 ^ 32) :
    ∀ (n fuel block off : Nat) (w : World), block + n = len / 64 → n < fuel →
      cypress_writeflash_loop sgn c image len fuel block off w
        = some (run sgn c (write_cmds c image n block off) w) := by
  intro n
  induction n with
  | zero =>
    intro fuel block off w hb hf
    obtain ⟨f, rfl⟩ : ∃ f, fuel = f + 1 := ⟨fuel - 1, by omega⟩
    have hnot : ¬ block < len / 64 := by omega
    rw [cypress_writeflash_loop, if_neg hnot]
    rfl
  | succ n ih =>
    intro fuel block off w hb hf
    obtain ⟨f, rfl⟩ : ∃ f, fuel = f + 1 := ⟨fuel - 1, by omega⟩
    have hlt : block < len / 64 := by omega
    have hwrap : (block + 1) % 2 ^ 32 = block + 1 := Nat.mod_eq_of_lt (by omega)
    rw [writeflash_loop_step sgn c image len f block off w hlt, hwrap]
    rw [ih f (block + 1) (off + 32 + 32) _ (by omega) (by omega)]
    rw [write_cmds_succ, run_cons, run_cons]
    generalize exchange sgn c (writefl_frame c block 0 (fun j => image (off + j)))
      CYPRESS_STAT_ALL w = A
    generalize exchange sgn c (writefl_frame c block 1 (fun j => image (off + 32 + j)))
      CYPRESS_STAT_ALL A.2 = B
    generalize run sgn c (write_cmds c image n (block + 1) (off + 32 + 32)) B.2 = R
    by_cases hA : A.1 ≠ 0
    · rw [if_pos hA, if_pos hA]
    · rw [if_neg hA, if_neg hA]
      by_cases hB : B.1 ≠ 0
      · rw [if_pos hB, if_pos hB]
      · rw [if_neg hB, if_neg hB]

theorem write_cmds_code (c : cypress) (image : Nat → Nat) :
    ∀ (n block off : Nat), ∀ p ∈ write_cmds c image n block off,
      p.code = - EIO ∧ p.mask = CYPRESS_STAT_ALL := by
  intro n
  induction n with
  | zero => intro block off p hp; simp [write_cmds] at hp
  | succ n ih =>
    intro block off p hp
    simp only [write_cmds, List.mem_cons] at hp
    rcases hp with rfl | rfl | hp
    · exact ⟨rfl, rfl⟩
    · exact ⟨rfl, rfl⟩
    · exact ih _ _ p hp

theorem write_cmds_length (c : cypress) (image : Nat → Nat) :
    ∀ (n block off : Nat), (write_cmds c image n block off).length = 2 * n := by
  intro n
  induction n with
  | zero => intro block off; rfl
  | succ n ih => intro block off; simp only [write_cmds, List.length_cons, ih]; ring

/-- With a valid length and enough fuel for the block loop,
`cypress_upload_image` performs the command sequence `upload_cmds`. -/
theorem upload_image_eq (sgn : Bool) (c : cypress) (image : Nat → Nat) (len fuel : Nat)
    (w : World) (h64 : len % 64 = 0) (hlen : len / 64 < 2 ^ 32) (hfuel : len / 64 < fuel) :
    cypress_upload_image sgn c image len fuel w
      = some (run sgn c (upload_cmds c image (len / 64)) w) := by
  have hcode : ∀ p ∈ write_cmds c image (len / 64) 0 0, p.code ≠ 0 := by
    intro p hp
    rw [(write_cmds_code c image _ _ _ p hp).1]
    decide
  have hloop := fun w1 => writeflash_loop_eq sgn c image len hlen (len / 64) fuel 0 0 w1
    (by omega) hfuel
  unfold cypress_upload_image cypress_writeflash upload_cmds
  simp only [h64, ne_eq, not_true_eq_false, if_false, cmd_enterbl_eq, cmd_verifyfl_eq,
    cmd_updatechksum_eq, cmd_exitbl_eq, hloop, run, run_append sgn c _ _ hcode]
  by_cases h0 : (exchange sgn c (plain_frame c CYPRESS_CMD_ENTERBL)
      (CYPRESS_STAT_INVALKEY ||| CYPRESS_STAT_INVALCMD) w).1 = 0
  · simp only [h0, not_true_eq_false, if_false]
    generalize (exchange sgn c (plain_frame c CYPRESS_CMD_ENTERBL)
      (CYPRESS_STAT_INVALKEY ||| CYPRESS_STAT_INVALCMD) w).2 = w1
    by_cases h1 : (run sgn c (write_cmds c image (len / 64) 0 0) w1).1 = 0
    · simp only [h1, not_true_eq_false, if_false]
      generalize (run sgn c (write_cmds c image (len / 64) 0 0) w1).2 = w2
      by_cases h2 : (exchange sgn c (plain_frame c CYPRESS_CMD_VERIFYFL) CYPRESS_STAT_ALL w2).1 = 0
      · simp only [h2, not_true_eq_false, if_false]
        generalize (exchange sgn c (plain_frame c CYPRESS_CMD_VERIFYFL) CYPRESS_STAT_ALL w2).2 = w3
        by_cases h3 : (exchange sgn c (plain_frame c CYPRESS_CMD_UPCHK) CYPRESS_STAT_ALL w3).1 = 0
        · simp only [h3, not_true_eq_false, if_false]
          generalize (exchange sgn c (plain_frame c CYPRESS_CMD_UPCHK) CYPRESS_STAT_ALL w3).2 = w4
          by_cases h4 : (exchange sgn c (plain_frame c CYPRESS_CMD_EXITBL) CYPRESS_STAT_ALL w4).1 = 0
          · simp only [h4, not_true_eq_false, if_false]
          · have e := exchange_code sgn c _ _ _ h4
            simp [e]
        · have e := exchange_code sgn c _ _ _ h3
          simp [e]
      · have e := exchange_code sgn c _ _ _ h2
        simp [e]
    · simp only [h1, not_false_eq_true, if_true]
  · have e := exchange_code sgn c _ _ _ h0
    simp [e]

/-! ## Frame contents -/

theorem store_bytes_length : ∀ (bs mem : List Nat) (off : Nat),
    (store_bytes mem off bs).length = mem.length := by
  intro bs
  induction bs with
  | nil => intro mem off; rfl
  | cons b bs ih => intro mem off; rw [store_bytes, ih, List.length_set]

theorem getD_set (f : List Nat) (i j x : Nat) :
    (f.set j x).getD i 0 = if i = j ∧ j < f.length then x else f.getD i 0 := by
  simp only [List.getD_eq_getElem?_getD, List.getElem?_set]
  by_cases h : j = i
  · subst h
    by_cases h2 : j < f.length
    · simp [h2]
    · rw [List.getElem?_eq_none (by omega)]
      simp [h2]
  · have h' : ¬ i = j := fun e => h e.symm
    simp [h, h']

theorem getD_store_bytes : ∀ (bs mem : List Nat) (off i : Nat),
    (store_bytes mem off bs).getD i 0 =
      if off ≤ i ∧ i < off + bs.length ∧ i < mem.length then bs.getD (i - off) 0 % 256
      else mem.getD i 0 := by
  intro bs
  induction bs with
  | nil =>
    intro mem off i
    have h : ¬ (off ≤ i ∧ i < off + ([] : List Nat).length ∧ i < mem.length) := by
      simp only [List.length_nil]; omega
    rw [if_neg h]; rfl
  | cons b bs ih =>
    intro mem off i
    rw [store_bytes, ih, List.length_set, getD_set, List.length_cons]
    by_cases h1 : off + 1 ≤ i ∧ i < off + 1 + bs.length ∧ i < mem.length
    · have h2 : off ≤ i ∧ i < off + (bs.length + 1) ∧ i < mem.length := by omega
      rw [if_pos h1, if_pos h2]
      obtain ⟨d, hd⟩ : ∃ d, i - off = d + 1 := ⟨i - off - 1, by omega⟩
      rw [hd, show i - (off + 1) = d by omega]
      rfl
    · rw [if_neg h1]
      by_cases h3 : i = off ∧ off < mem.length
      · have h2 : off ≤ i ∧ i < off + (bs.length + 1) ∧ i < mem.length := by omega
        rw [if_pos h3, if_pos h2, show i - off = 0 by omega]
        rfl
      · have h2 : ¬ (off ≤ i ∧ i < off + (bs.length + 1) ∧ i < mem.length) := by omega
        rw [if_neg h3, if_neg h2]

theorem set_bytes (f : List Nat) (j x : Nat) (hf : ∀ b ∈ f, b < 256) (hx : x < 256) :
    ∀ b ∈ f.set j x, b < 256 := by
  intro b hb
  rcases List.mem_or_eq_of_mem_set hb with h | h
  · exact hf b h
  · rw [h]; exact hx

theorem store_bytes_bytes : ∀ (bs mem : List Nat) (off : Nat), (∀ b ∈ mem, b < 256) →
    ∀ b ∈ store_bytes mem off bs, b < 256 := by
  intro bs
  induction bs with
  | nil => intro mem off h; exact h
  | cons x bs ih =>
    intro mem off h
    rw [store_bytes]
    exact ih _ _ (set_bytes mem off _ h (Nat.mod_lt _ (by decide)))

/-- Well-formed frame: 64 bytes. -/
theorem plain_frame_length (c : cypress) (op : Nat) : (plain_frame c op).length = 64 := by
  unfold plain_frame assign_key_bytes
  rw [store_bytes_length, store_bytes_length]
  rfl

theorem plain_frame_bytes (c : cypress) (op : Nat) : ∀ b ∈ plain_frame c op, b < 256 := by
  unfold plain_frame assign_key_bytes
  apply store_bytes_bytes
  apply store_bytes_bytes
  intro b hb
  rw [List.eq_of_mem_replicate hb]
  decide

theorem getD_replicate_zero (n i : Nat) : (List.replicate n 0).getD i 0 = 0 := by
  simp only [List.getD_eq_getElem?_getD, List.getElem?_replicate]
  split <;> rfl

theorem getD_map_range (g : Nat → Nat) (n j : Nat) :
    ((List.range n).map g).getD j 0 = if j < n then g j else 0 := by
  simp only [List.getD_eq_getElem?_getD]
  by_cases h : j < n
  · rw [if_pos h, List.getElem?_eq_getElem (by simpa using h)]
    simp
  · rw [if_neg h, List.getElem?_eq_none (by simpa using h)]
    rfl

theorem key_arg (op : Nat) :
    ((store_bytes (List.replicate FRAME_SIZE 0) 0 (cpu_to_be16 op)).drop OFF_KEY).take 8
      = List.replicate 8 0 := rfl

theorem plain_frame_getD (c : cypress) (op i : Nat) :
    (plain_frame c op).getD i 0 =
      if i = 0 then op / 256 % 256
      else if i = 1 then op % 256
      else if i < 10 then (c.assign_key (List.replicate 8 0)).getD (i - 2) 0 % 256
      else 0 := by
  unfold plain_frame assign_key_bytes
  simp only [key_arg]
  rw [getD_store_bytes, store_bytes_length, getD_store_bytes, getD_replicate_zero,
    getD_map_range]
  simp only [List.length_map, List.length_range, List.length_replicate, OFF_KEY, FRAME_SIZE,
    cpu_to_be16, List.length_cons, List.length_nil]
  by_cases h0 : i = 0
  · subst h0; simp
  · by_cases h1 : i = 1
    · subst h1; simp
    · by_cases h2 : i < 10
      · have h3 : 2 ≤ i ∧ i < 2 + 8 ∧ i < 64 := by omega
        have h4 : i - 2 < 8 := by omega
        rw [if_pos h3, if_pos h4, if_neg h0, if_neg h1, if_pos h2]
      · have h3 : ¬ (2 ≤ i ∧ i < 2 + 8 ∧ i < 64) := by omega
        have h5 : ¬ (0 ≤ i ∧ i < 0 + (0 + 1 + 1) ∧ i < 64) := by omega
        rw [if_neg h3, if_neg h5, if_neg h0, if_neg h1, if_neg h2]

theorem opcode_plain_frame (c : cypress) (op : Nat) (h : op < 65536) :
    opcode (plain_frame c op) = op := by
  unfold opcode
  rw [plain_frame_getD, plain_frame_getD]
  simp only [if_true, one_ne_zero, if_false]
  omega

theorem writefl_frame_length (c : cypress) (blocknr segment : Nat) (data : Nat → Nat) :
    (writefl_frame c blocknr segment data).length = 64 := by
  unfold writefl_frame
  rw [store_bytes_length, List.length_set, List.length_set, List.length_set, plain_frame_length]

theorem writefl_frame_bytes (c : cypress) (blocknr segment : Nat) (data : Nat → Nat) :
    ∀ b ∈ writefl_frame c blocknr segment data, b < 256 := by
  unfold writefl_frame
  apply store_bytes_bytes
  apply set_bytes _ _ _ _ (Nat.mod_lt _ (by decide))
  apply set_bytes _ _ _ _ (Nat.mod_lt _ (by decide))
  apply set_bytes _ _ _ _ (Nat.mod_lt _ (by decide))
  exact plain_frame_bytes c _

/-- Every byte of the buffer that `cypress_cmd_writefl` builds. -/
theorem writefl_frame_getD (c : cypress) (blocknr segment : Nat) (data : Nat → Nat) (i : Nat) :
    (writefl_frame c blocknr segment data).getD i 0 =
      if i < 10 then (plain_frame c CYPRESS_CMD_WRITEFL).getD i 0
      else if i = 10 then (blocknr % 65536) / 256
      else if i = 11 then blocknr % 256
      else if i = 12 then segment % 256
      else if i < 45 then data (i - 13) % 256
      else 0 := by
  unfold writefl_frame
  rw [getD_store_bytes, getD_set, getD_set, getD_set, getD_map_range]
  simp only [List.length_set, plain_frame_length, List.length_map, List.length_range,
    OFF_PAYLOAD, Nat.shiftRight_eq_div_pow]
  by_cases h13 : 13 ≤ i ∧ i < 45
  · have e1 : 10 + 3 ≤ i ∧ i < 10 + 3 + 32 ∧ i < 64 := by omega
    have e2 : i - (10 + 3) < 32 := by omega
    have e3 : i - (10 + 3) = i - 13 := by omega
    rw [if_pos e1, if_pos e2, e3, if_neg (by omega), if_neg (by omega), if_neg (by omega),
      if_neg (by omega), if_pos h13.2]
  · have e1 : ¬ (10 + 3 ≤ i ∧ i < 10 + 3 + 32 ∧ i < 64) := by omega
    rw [if_neg e1]
    by_cases h10 : i < 10
    · rw [if_neg (by omega), if_neg (by omega), if_neg (by omega), if_pos h10]
    · rw [if_neg h10]
      by_cases a : i = 10
      · subst a
        rw [if_neg (by omega), if_neg (by omega), if_pos (by omega), if_pos rfl]
        omega
      · by_cases b : i = 11
        · subst b
          rw [if_neg (by omega), if_pos (by omega), if_neg a, if_pos rfl]
          omega
        · by_cases d : i = 12
          · subst d
            rw [if_pos (by omega), if_neg a, if_neg b, if_pos rfl]
            omega
          · rw [if_neg (by omega), if_neg (by omega), if_neg (by omega), if_neg a, if_neg b,
              if_neg d, if_neg (by omega), plain_frame_getD]
            rw [if_neg (by omega), if_neg (by omega), if_neg (by omega)]

/-- The `k`-th command of the write phase: block `block + k / 2`, segment
`k % 2`, data at image offset `off + 32 * k`. -/
theorem write_cmds_getElem (c : cypress) (image : Nat → Nat) :
    ∀ (n block off k : Nat), k < 2 * n →
      ∃ data : Nat → Nat, (∀ j, data j = image (off + 32 * k + j)) ∧
        (write_cmds c image n block off)[k]? =
          some { frame := writefl_frame c (block + k / 2) (k % 2) data,
                 mask := CYPRESS_STAT_ALL, code := - EIO } := by
  intro n
  induction n with
  | zero => intro block off k hk; omega
  | succ n ih =>
    intro block off k hk
    rw [write_cmds_succ]
    match k, hk with
    | 0, _ => exact ⟨fun j => image (off + j), fun j => rfl, rfl⟩
    | 1, _ =>
      refine ⟨fun j => image (off + 32 + j), fun j => rfl, ?_⟩
      have e1 : block + 1 / 2 = block := by omega
      have e2 : 1 % 2 = 1 := rfl
      rw [e1, e2, List.getElem?_cons_succ, List.getElem?_cons_zero]
    | k + 2, hk =>
      obtain ⟨data, hd, he⟩ := ih (block + 1) (off + 32 + 32) k (by omega)
      refine ⟨data, fun j => ?_, ?_⟩
      · rw [hd j]; congr 1; ring
      · rw [List.getElem?_cons_succ, List.getElem?_cons_succ, he]
        have e1 : block + 1 + k / 2 = block + (k + 2) / 2 := by omega
        have e2 : k % 2 = (k + 2) % 2 := by omega
        rw [e1, e2]

/-- The write-phase commands only depend on the image bytes they carry. -/
theorem write_cmds_congr (c : cypress) (image image2 : Nat → Nat) (len : Nat)
    (h : ∀ i, i < len → image2 i = image i) :
    ∀ (n block off : Nat), off + 64 * n ≤ len →
      write_cmds c image2 n block off = write_cmds c image n block off := by
  intro n
  induction n with
  | zero => intro block off _; rfl
  | succ n ih =>
    intro block off hoff
    have d0 : (List.range 32).map (fun j => image2 (off + j))
        = (List.range 32).map (fun j => image (off + j)) := by
      apply List.map_congr_left
      intro j hj
      have := List.mem_range.mp hj
      exact h _ (by omega)
    have d1 : (List.range 32).map (fun j => image2 (off + 32 + j))
        = (List.range 32).map (fun j => image (off + 32 + j)) := by
      apply List.map_congr_left
      intro j hj
      have := List.mem_range.mp hj
      exact h _ (by omega)
    rw [write_cmds_succ, write_cmds_succ, ih (block + 1) (off + 32 + 32) (by omega)]
    unfold writefl_frame
    rw [d0, d1]

theorem cmd_checksum_getD (sgn : Bool) (f : List Nat) (i : Nat) (h : i ≠ 45) :
    (cmd_checksum sgn f).getD i 0 = f.getD i 0 := by
  rw [cmd_checksum_eq_set]
  exact getD_set_of_ne f i 45 _ h

theorem opcode_cmd_checksum (sgn : Bool) (f : List Nat) :
    opcode (cmd_checksum sgn f) = opcode f := by
  unfold opcode
  rw [cmd_checksum_getD sgn f 0 (by decide), cmd_checksum_getD sgn f 1 (by decide)]

theorem opcode_writefl_frame (c : cypress) (blocknr segment : Nat) (data : Nat → Nat) :
    opcode (writefl_frame c blocknr segment data) = CYPRESS_CMD_WRITEFL := by
  unfold opcode
  rw [writefl_frame_getD, writefl_frame_getD, if_pos (by decide), if_pos (by decide)]
  exact opcode_plain_frame c CYPRESS_CMD_WRITEFL (by decide)

theorem writefl_frame_payload0 (c : cypress) (blocknr segment : Nat) (data : Nat → Nat) :
    (writefl_frame c blocknr segment data).getD 10 0 = blocknr % 65536 / 256 := by
  rw [writefl_frame_getD, if_neg (show ¬ 10 < 10 by decide), if_pos rfl]

theorem writefl_frame_payload1 (c : cypress) (blocknr segment : Nat) (data : Nat → Nat) :
    (writefl_frame c blocknr segment data).getD 11 0 = blocknr % 256 := by
  rw [writefl_frame_getD, if_neg (show ¬ 11 < 10 by decide), if_neg (show ¬ 11 = 10 by decide),
    if_pos rfl]

theorem writefl_frame_payload2 (c : cypress) (blocknr segment : Nat) (data : Nat → Nat) :
    (writefl_frame c blocknr segment data).getD 12 0 = segment % 256 := by
  rw [writefl_frame_getD, if_neg (show ¬ 12 < 10 by decide), if_neg (show ¬ 12 = 10 by decide),
    if_neg (show ¬ 12 = 11 by decide), if_pos rfl]

theorem writefl_frame_data (c : cypress) (blocknr segment : Nat) (data : Nat → Nat) (j : Nat)
    (hj : j < 32) :
    (writefl_frame c blocknr segment data).getD (13 + j) 0 = data j % 256 := by
  rw [writefl_frame_getD, if_neg (show ¬ 13 + j < 10 by omega),
    if_neg (show ¬ 13 + j = 10 by omega), if_neg (show ¬ 13 + j = 11 by omega),
    if_neg (show ¬ 13 + j = 12 by omega), if_pos (show 13 + j < 45 by omega),
    show 13 + j - 13 = j by omega]

theorem writeflash_eq (sgn : Bool) (c : cypress) (image : Nat → Nat) (len fuel : Nat)
    (w : World) (h64 : len % 64 = 0) (hlen : len / 64 < 2 ^ 32) (hfuel : len / 64 < fuel) :
    cypress_writeflash sgn c image len fuel w
      = some (run sgn c (write_cmds c image (len / 64) 0 0) w) := by
  unfold cypress_writeflash
  rw [if_neg (by simp [h64])]
  exact writeflash_loop_eq sgn c image len hlen (len / 64) fuel 0 0 w (by omega) hfuel

theorem upload_cmds_length (c : cypress) (image : Nat → Nat) (N : Nat) :
    (upload_cmds c image N).length = 2 * N + 4 := by
  unfold upload_cmds
  rw [List.length_cons, List.length_append, write_cmds_length]
  rfl

theorem upload_frames_length (sgn : Bool) (c : cypress) (image : Nat → Nat) (N : Nat) :
    (upload_frames sgn c image N).length = 2 * N + 4 := by
  unfold upload_frames
  rw [List.length_map, upload_cmds_length]

/-- Mask and failure code of the `j`-th command of an upload. -/
theorem upload_cmds_mask_code (c : cypress) (image : Nat → Nat) (N j : Nat) (p : Cmd)
    (h : (upload_cmds c image N)[j]? = some p) :
    p.mask = upload_mask j ∧ p.code = if 1 ≤ j ∧ j ≤ 2 * N then - EIO else -1 := by
  unfold upload_cmds at h
  cases j with
  | zero =>
    rw [List.getElem?_cons_zero] at h
    have hp := Option.some.inj h
    subst hp
    exact ⟨rfl, rfl⟩
  | succ j =>
    rw [List.getElem?_cons_succ] at h
    have hm : upload_mask (j + 1) = CYPRESS_STAT_ALL := by
      unfold upload_mask; rw [if_neg (by omega)]
    rw [hm]
    by_cases hj : j < 2 * N
    · rw [List.getElem?_append_left (by rw [write_cmds_length]; exact hj)] at h
      have := write_cmds_code c image N 0 0 p (List.getElem?_mem h)
      rw [if_pos (by omega)]
      exact ⟨this.2, this.1⟩
    · rw [List.getElem?_append_right (by rw [write_cmds_length]; omega)] at h
      have hmem := List.getElem?_mem h
      rw [if_neg (by omega)]
      simp only [List.mem_cons, List.mem_singleton, List.not_mem_nil, or_false] at hmem
      rcases hmem with rfl | rfl | rfl <;> exact ⟨rfl, rfl⟩

theorem write_cmds_opcodes (sgn : Bool) (c : cypress) (image : Nat → Nat) :
    ∀ (n block off : Nat),
      ((write_cmds c image n block off).map (fun p => cmd_checksum sgn p.frame)).map opcode
        = List.replicate (2 * n) CYPRESS_CMD_WRITEFL := by
  intro n
  induction n with
  | zero => intro block off; rfl
  | succ n ih =>
    intro block off
    rw [write_cmds_succ, List.map_cons, List.map_cons, List.map_cons, List.map_cons, ih,
      opcode_cmd_checksum, opcode_cmd_checksum, opcode_writefl_frame, opcode_writefl_frame,
      show 2 * (n + 1) = 2 * n + 1 + 1 by ring, List.replicate_succ, List.replicate_succ]

theorem upload_frames_opcodes (sgn : Bool) (c : cypress) (image : Nat → Nat) (N : Nat) :
    (upload_frames sgn c image N).map opcode =
      [CYPRESS_CMD_ENTERBL] ++ List.replicate (2 * N) CYPRESS_CMD_WRITEFL ++
        [CYPRESS_CMD_VERIFYFL, CYPRESS_CMD_UPCHK, CYPRESS_CMD_EXITBL] := by
  unfold upload_frames upload_cmds
  rw [List.map_cons, List.map_cons, List.map_append, List.map_append, write_cmds_opcodes]
  simp only [List.map_cons, List.map_nil, opcode_cmd_checksum]
  rw [opcode_plain_frame c _ (by decide), opcode_plain_frame c _ (by decide),
    opcode_plain_frame c _ (by decide), opcode_plain_frame c _ (by decide)]
  rfl

theorem write_cmds_wf (c : cypress) (image : Nat → Nat) :
    ∀ (n block off : Nat), ∀ p ∈ write_cmds c image n block off,
      p.frame.length = 64 ∧ ∀ b ∈ p.frame, b < 256 := by
  intro n
  induction n with
  | zero => intro block off p hp; simp [write_cmds] at hp
  | succ n ih =>
    intro block off p hp
    rw [write_cmds_succ] at hp
    rcases List.mem_cons.mp hp with h | hp
    · have e : p.frame = writefl_frame c block 0 (fun j => image (off + j)) := by rw [h]
      rw [e]
      exact ⟨writefl_frame_length c block 0 (fun j => image (off + j)),
        writefl_frame_bytes c block 0 (fun j => image (off + j))⟩
    · rcases List.mem_cons.mp hp with h | hp
      · have e : p.frame = writefl_frame c block 1 (fun j => image (off + 32 + j)) := by rw [h]
        rw [e]
        exact ⟨writefl_frame_length c block 1 (fun j => image (off + 32 + j)),
          writefl_frame_bytes c block 1 (fun j => image (off + 32 + j))⟩
      · exact ih _ _ p hp

theorem checksum_ok_cmd_checksum (sgn : Bool) (f : List Nat) (hlen : f.length = 64)
    (hb : ∀ b ∈ f, b < 256) : checksum_ok (cmd_checksum sgn f) := by
  unfold checksum_ok
  rw [cmd_checksum_byte45 sgn f hlen hb, cmd_checksum_eq_set, sum45_set]

/-- Every frame of an upload carries a valid checksum. -/
theorem upload_frames_checksum (sgn : Bool) (c : cypress) (image : Nat → Nat) (N : Nat) :
    ∀ f ∈ upload_frames sgn c image N, checksum_ok f := by
  intro f hf
  unfold upload_frames at hf
  obtain ⟨p, hp, rfl⟩ := List.mem_map.mp hf
  unfold upload_cmds at hp
  simp only [List.mem_cons, List.mem_append, List.mem_singleton, List.not_mem_nil,
    or_false] at hp
  rcases hp with rfl | hp | rfl | rfl | rfl
  · exact checksum_ok_cmd_checksum sgn _ (plain_frame_length _ _) (plain_frame_bytes _ _)
  · have := write_cmds_wf c image N 0 0 p hp
    exact checksum_ok_cmd_checksum sgn _ this.1 this.2
  · exact checksum_ok_cmd_checksum sgn _ (plain_frame_length _ _) (plain_frame_bytes _ _)
  · exact checksum_ok_cmd_checksum sgn _ (plain_frame_length _ _) (plain_frame_bytes _ _)
  · exact checksum_ok_cmd_checksum sgn _ (plain_frame_length _ _) (plain_frame_bytes _ _)

/-- An upload in which the device accepts every command. -/
theorem upload_all_accepted (sgn : Bool) (c : cypress) (image : Nat → Nat) (len fuel : Nat)
    (w : World) (h64 : len % 64 = 0) (hlen : len / 64 < 2 ^ 32) (hfuel : len / 64 < fuel)
    (hacc : ∀ j, j < 2 * (len / 64) + 4 → accepted w j) :
    ∃ w2, cypress_upload_image sgn c image len fuel w = some (0, w2) ∧
      w2.usb = w.usb ∧
      w2.calls = w.calls + 2 * (2 * (len / 64) + 4) ∧
      sent w2.trace = sent w.trace ++ upload_frames sgn c image (len / 64) ∧
      key_calls w2.trace = key_calls w.trace + (2 * (len / 64) + 4) ∧
      w2.trace = w.trace ++ (upload_frames sgn c image (len / 64)).flatMap (cmd_events c) := by
  have hok : ∀ j p, (upload_cmds c image (len / 64))[j]? = some p →
      cmd_ok p.mask w.usb (w.calls + 2 * j) := by
    intro j p hp
    have hj : j < 2 * (len / 64) + 4 := by
      have := (List.getElem?_eq_some_iff.mp hp).1
      rwa [upload_cmds_length] at this
    rw [(upload_cmds_mask_code c image _ j p hp).1]
    exact hacc j hj
  obtain ⟨r1, r2, r3, r4, r5, r6⟩ := run_ok sgn c (upload_cmds c image (len / 64)) w hok
  refine ⟨(run sgn c (upload_cmds c image (len / 64)) w).2, ?_, r2, ?_, r4, ?_, ?_⟩
  · rw [upload_image_eq sgn c image len fuel w h64 hlen hfuel, ← r1]
  · rw [r3, upload_cmds_length]
  · rw [r5, upload_cmds_length]
  · rw [r6]
    unfold upload_frames
    rw [List.flatMap_map]

/-- An upload in which command `k` is the first that the device rejects. -/
theorem upload_first_failure (sgn : Bool) (c : cypress) (image : Nat → Nat) (len fuel : Nat)
    (w : World) (h64 : len % 64 = 0) (hlen : len / 64 < 2 ^ 32) (hfuel : len / 64 < fuel)
    (k : Nat) (hk : k < 2 * (len / 64) + 4) (hacc : ∀ j, j < k → accepted w j)
    (hrej : ¬ accepted w k) :
    ∃ w2, cypress_upload_image sgn c image len fuel w
        = some (if 1 ≤ k ∧ k ≤ 2 * (len / 64) then - EIO else -1, w2) ∧
      w2.usb = w.usb ∧
      sent w2.trace = sent w.trace ++ (upload_frames sgn c image (len / 64)).take (k + 1) ∧
      key_calls w2.trace = key_calls w.trace + (k + 1) := by
  have hk2 : k < (upload_cmds c image (len / 64)).length := by
    rw [upload_cmds_length]; exact hk
  have hget : (upload_cmds c image (len / 64))[k]? = some ((upload_cmds c image (len / 64))[k]) :=
    List.getElem?_eq_getElem hk2
  obtain ⟨hm, hc⟩ := upload_cmds_mask_code c image _ k _ hget
  have hlt : ∀ j q, j < k → (upload_cmds c image (len / 64))[j]? = some q →
      cmd_ok q.mask w.usb (w.calls + 2 * j) := by
    intro j q hj hq
    rw [(upload_cmds_mask_code c image _ j q hq).1]
    exact hacc j hj
  have hno : ¬ cmd_ok ((upload_cmds c image (len / 64))[k]).mask w.usb (w.calls + 2 * k) := by
    rw [hm]; exact hrej
  obtain ⟨r1, r2, r4, r5⟩ := run_fail sgn c (upload_cmds c image (len / 64)) w k _ hget hlt hno
  refine ⟨(run sgn c (upload_cmds c image (len / 64)) w).2, ?_, r2, ?_, r5⟩
  · rw [upload_image_eq sgn c image len fuel w h64 hlen hfuel, ← hc, ← r1]
  · rw [r4]
    unfold upload_frames
    rw [List.map_take]

/-! ## Main results -/

/-- C1. Status validation mask law of `cypress_send_command`: when both bulk
transfers report no error and 64 transferred bytes, the routine returns 0 if
and only if `((status0 | status1) & ((M | 0x20) & ~0x01)) == 0x20`, for every
command mask `M` and every pair of status bytes. -/
theorem send_command_mask_law (sgn : Bool) (c : cypress) (cmd : List Nat) (M s0 s1 : Nat)
    (w : World)
    (hout : (w.usb w.calls).err = 0 ∧ (w.usb w.calls).transferred = 64)
    (hin : (w.usb (w.calls + 1)).err = 0 ∧ (w.usb (w.calls + 1)).transferred = 64)
    (hs0 : (w.usb (w.calls + 1)).status0 = s0)
    (hs1 : (w.usb (w.calls + 1)).status1 = s1) :
    (cypress_send_command sgn c cmd FRAME_SIZE M w).1 = 0 ↔
      (s0 ||| s1) &&& ((M ||| 0x20) &&& 0xFE) = 0x20 := by
  have h1 : moved64 (w.usb w.calls) := hout
  have h2 : moved64 (w.usb (w.calls + 1)) := hin
  rw [send_command_eq, if_pos h1]
  subst hs0 hs1
  by_cases h3 : status_ok M (w.usb (w.calls + 1)).status0 (w.usb (w.calls + 1)).status1
  · rw [if_pos ⟨h2, h3⟩]
    exact ⟨fun _ => h3, fun _ => rfl⟩
  · rw [if_neg (fun h => h3 h.2)]
    constructor
    · intro h
      have h0 : (-1 : Int) = 0 := h
      exact absurd h0 (by decide)
    · intro h
      exact absurd h h3

/-- C1, the four test vectors of the spec with `M = 0xFF`: `(0x20, 0x00)` and
`(0x21, 0x00)` succeed, `(0x00, 0x00)` and `(0x60, 0x00)` fail. -/
theorem send_command_mask_law_witness :
    (cypress_send_command true default_session (List.replicate 64 0) FRAME_SIZE 0xFF
        (reply_world 0x20 0x00)).1 = 0 ∧
    (cypress_send_command true default_session (List.replicate 64 0) FRAME_SIZE 0xFF
        (reply_world 0x21 0x00)).1 = 0 ∧
    (cypress_send_command true default_session (List.replicate 64 0) FRAME_SIZE 0xFF
        (reply_world 0x00 0x00)).1 ≠ 0 ∧
    (cypress_send_command true default_session (List.replicate 64 0) FRAME_SIZE 0xFF
        (reply_world 0x60 0x00)).1 ≠ 0 :=
  ⟨(send_command_mask_law true default_session _ 0xFF 0x20 0x00 (reply_world 0x20 0x00)
      ⟨rfl, rfl⟩ ⟨rfl, rfl⟩ rfl rfl).mpr (by decide),
   (send_command_mask_law true default_session _ 0xFF 0x21 0x00 (reply_world 0x21 0x00)
      ⟨rfl, rfl⟩ ⟨rfl, rfl⟩ rfl rfl).mpr (by decide),
   fun h => absurd ((send_command_mask_law true default_session _ 0xFF 0x00 0x00
      (reply_world 0x00 0x00) ⟨rfl, rfl⟩ ⟨rfl, rfl⟩ rfl rfl).mp h) (by decide),
   fun h => absurd ((send_command_mask_law true default_session _ 0xFF 0x60 0x00
      (reply_world 0x60 0x00) ⟨rfl, rfl⟩ ⟨rfl, rfl⟩ rfl rfl).mp h) (by decide)⟩

/-- C2. Checksum correctness of `cmd_checksum`: for every 64-byte frame, with
plain `char` signed or unsigned, the byte at offset 45 afterwards is the low
8 bits of the sum of the bytes at offsets 0..44 taken as values 0..255. -/
theorem cmd_checksum_correct (char_signed : Bool) (f : List Nat) (hlen : f.length = 64)
    (hb : ∀ b ∈ f, b < 256) :
    (cmd_checksum char_signed f).getD 45 0 = sum45 f % 256 :=
  cmd_checksum_byte45 char_signed f hlen hb

/-- C2 at a frame of 64 bytes `0xFF` with signed `char`: the checksum byte is
`0xD3`, the low byte of `45 * 255`. -/
theorem cmd_checksum_correct_witness :
    (cmd_checksum true (List.replicate 64 0xFF)).getD 45 0
        = sum45 (List.replicate 64 0xFF) % 256 ∧
      sum45 (List.replicate 64 0xFF) % 256 = 0xD3 :=
  ⟨cmd_checksum_correct true (List.replicate 64 0xFF) (by decide) (by decide), by decide⟩

/-- C3. `cmd_checksum` touches only byte 45 and is idempotent: the frame keeps
its length and every byte at an offset other than 45, running it a second
time changes nothing, and the checksummed frame verifies against the sum of
its offsets 0..44 (byte 45 is not part of the sum). -/
theorem cmd_checksum_idempotent (char_signed : Bool) (f : List Nat) (hlen : f.length = 64)
    (hb : ∀ b ∈ f, b < 256) :
    (cmd_checksum char_signed f).length = 64 ∧
    (∀ i, i ≠ 45 → (cmd_checksum char_signed f)[i]? = f[i]?) ∧
    cmd_checksum char_signed (cmd_checksum char_signed f) = cmd_checksum char_signed f ∧
    sum45 (cmd_checksum char_signed f) = sum45 f ∧
    checksum_ok (cmd_checksum char_signed f) := by
  refine ⟨?_, ?_, cmd_checksum_idem char_signed f, ?_, ?_⟩
  · rw [cmd_checksum_eq_set, List.length_set, hlen]
  · intro i hi
    rw [cmd_checksum_eq_set, List.getElem?_set_ne (Ne.symm hi)]
  · rw [cmd_checksum_eq_set, sum45_set]
  · unfold checksum_ok
    rw [cmd_checksum_byte45 char_signed f hlen hb]
    rw [cmd_checksum_eq_set, sum45_set]

/-- C3 at the all-`0xFF` frame, whose byte 45 goes from `0xFF` to `0xD3`. -/
theorem cmd_checksum_idempotent_witness :
    (List.replicate 64 0xFF).length = 64 ∧
    (cmd_checksum true (List.replicate 64 0xFF)).length = 64 ∧
    (∀ i, i ≠ 45 → (cmd_checksum true (List.replicate 64 0xFF))[i]?
        = (List.replicate 64 0xFF)[i]?) ∧
    cmd_checksum true (cmd_checksum true (List.replicate 64 0xFF))
        = cmd_checksum true (List.replicate 64 0xFF) ∧
    sum45 (cmd_checksum true (List.replicate 64 0xFF)) = sum45 (List.replicate 64 0xFF) ∧
    checksum_ok (cmd_checksum true (List.replicate 64 0xFF)) :=
  ⟨by decide, cmd_checksum_idempotent true (List.replicate 64 0xFF) (by decide) (by decide)⟩

/-! ## Upload sequencing -/

/-- C4. Block/segment sequencing of `cypress_writeflash`: for an image of
`64 * N` bytes with `N ≤ 65536` and a device that accepts every command, the
call returns 0 having sent exactly `2 * N` WRITE_FLASH frames, the `k`-th of
which carries the high and low byte of block number `k / 2`, the segment
`k % 2` and the image bytes `32 * k .. 32 * k + 31`; and the outcome does not
depend on any byte at index `len` or beyond. -/
theorem writeflash_sequencing (char_signed : Bool) (c : cypress) (image : Nat → Nat)
    (len N fuel : Nat) (w : World)
    (hlen : len = 64 * N) (hN : N ≤ 65536) (hfuel : N < fuel)
    (himg : ∀ i, i < len → image i < 256)
    (hdev : ∀ k, k < 2 * N → cmd_ok CYPRESS_STAT_ALL w.usb (w.calls + 2 * k)) :
    ∃ (w2 : World) (L : List (List Nat)),
      cypress_writeflash char_signed c image len fuel w = some (0, w2) ∧
      sent w2.trace = sent w.trace ++ L ∧
      L.length = 2 * N ∧
      (∀ k, k < 2 * N →
        opcode (L.getD k []) = CYPRESS_CMD_WRITEFL ∧
        (L.getD k []).getD (OFF_PAYLOAD + 0) 0 = (k / 2) / 256 ∧
        (L.getD k []).getD (OFF_PAYLOAD + 1) 0 = (k / 2) % 256 ∧
        (L.getD k []).getD (OFF_PAYLOAD + 2) 0 = k % 2 ∧
        ∀ j, j < 32 → (L.getD k []).getD (OFF_PAYLOAD + 3 + j) 0 = image (32 * k + j)) ∧
      (∀ image2 : Nat → Nat, (∀ i, i < len → image2 i = image i) →
        cypress_writeflash char_signed c image2 len fuel w
          = cypress_writeflash char_signed c image len fuel w) := by
  have hdiv : len / 64 = N := by omega
  have h64 : len % 64 = 0 := by omega
  have hlt : len / 64 < 2 ^ 32 := by
    rw [hdiv]; exact lt_of_le_of_lt hN (by decide)
  have hfuel2 : len / 64 < fuel := by omega
  have hok : ∀ j p, (write_cmds c image N 0 0)[j]? = some p →
      cmd_ok p.mask w.usb (w.calls + 2 * j) := by
    intro j p hp
    have hj : j < 2 * N := by
      have := (List.getElem?_eq_some_iff.mp hp).1
      rwa [write_cmds_length] at this
    rw [(write_cmds_code c image N 0 0 p (List.getElem?_mem hp)).2]
    exact hdev j hj
  obtain ⟨r1, _, _, r4, _, _⟩ := run_ok char_signed c (write_cmds c image N 0 0) w hok
  refine ⟨(run char_signed c (write_cmds c image N 0 0) w).2,
    (write_cmds c image N 0 0).map (fun p => cmd_checksum char_signed p.frame), ?_, r4, ?_, ?_, ?_⟩
  · rw [writeflash_eq char_signed c image len fuel w h64 hlt hfuel2, hdiv, ← r1]
  · rw [List.length_map, write_cmds_length]
  · intro k hk
    obtain ⟨data, hd, he⟩ := write_cmds_getElem c image N 0 0 k hk
    have hL : ((write_cmds c image N 0 0).map (fun p => cmd_checksum char_signed p.frame)).getD k []
        = cmd_checksum char_signed (writefl_frame c (0 + k / 2) (k % 2) data) := by
      rw [List.getD_eq_getElem?_getD, List.getElem?_map, he, Option.map_some',
        Option.getD_some]
    rw [hL]
    have hk2 : k / 2 < 65536 := by omega
    refine ⟨?_, ?_, ?_, ?_, ?_⟩
    · rw [opcode_cmd_checksum, opcode_writefl_frame]
    · rw [show OFF_PAYLOAD + 0 = 10 from rfl, cmd_checksum_getD _ _ _ (by decide),
        writefl_frame_payload0]
      omega
    · rw [show OFF_PAYLOAD + 1 = 11 from rfl, cmd_checksum_getD _ _ _ (by decide),
        writefl_frame_payload1]
      omega
    · rw [show OFF_PAYLOAD + 2 = 12 from rfl, cmd_checksum_getD _ _ _ (by decide),
        writefl_frame_payload2]
      omega
    · intro j hj
      rw [show OFF_PAYLOAD + 3 + j = 13 + j from rfl,
        cmd_checksum_getD _ _ _ (show 13 + j ≠ 45 by omega), writefl_frame_data _ _ _ _ _ hj, hd]
      have hb := himg (32 * k + j) (by omega)
      rw [Nat.zero_add]
      omega
  · intro image2 h2
    rw [writeflash_eq char_signed c image len fuel w h64 hlt hfuel2,
      writeflash_eq char_signed c image2 len fuel w h64 hlt hfuel2, hdiv,
      write_cmds_congr c image image2 len h2 N 0 0 (by omega)]

/-- C4 on the 128-byte image `0, 1, .., 127`: the four WRITE_FLASH frames
carry (block 0, segment 0, bytes 0..31), (block 0, segment 1, bytes 32..63),
(block 1, segment 0, bytes 64..95), (block 1, segment 1, bytes 96..127). -/
theorem writeflash_sequencing_witness :
    (∃ (w2 : World) (L : List (List Nat)),
      cypress_writeflash true default_session ramp_image 128 3 (reply_world 0x20 0x00)
        = some (0, w2) ∧
      sent w2.trace = sent (reply_world 0x20 0x00).trace ++ L ∧
      L.length = 2 * 2 ∧
      (∀ k, k < 2 * 2 →
        opcode (L.getD k []) = CYPRESS_CMD_WRITEFL ∧
        (L.getD k []).getD (OFF_PAYLOAD + 0) 0 = (k / 2) / 256 ∧
        (L.getD k []).getD (OFF_PAYLOAD + 1) 0 = (k / 2) % 256 ∧
        (L.getD k []).getD (OFF_PAYLOAD + 2) 0 = k % 2 ∧
        ∀ j, j < 32 → (L.getD k []).getD (OFF_PAYLOAD + 3 + j) 0 = ramp_image (32 * k + j)) ∧
      (∀ image2 : Nat → Nat, (∀ i, i < 128 → image2 i = ramp_image i) →
        cypress_writeflash true default_session image2 128 3 (reply_world 0x20 0x00)
          = cypress_writeflash true default_session ramp_image 128 3 (reply_world 0x20 0x00))) ∧
    (cypress_writeflash true default_session ramp_image 128 3 (reply_world 0x20 0x00)).map
        (fun r => (r.1, (sent r.2.trace).map
          (fun f => (f.getD 10 0, f.getD 11 0, f.getD 12 0, (f.drop 13).take 32))))
      = some (0, [(0, 0, 0, List.range' 0 32), (0, 0, 1, List.range' 32 32),
                  (0, 1, 0, List.range' 64 32), (0, 1, 1, List.range' 96 32)]) :=
  ⟨writeflash_sequencing true default_session ramp_image 128 2 3 (reply_world 0x20 0x00)
      rfl (by decide) (by decide) (fun i _ => Nat.mod_lt i (by decide))
      (fun _ _ => ⟨⟨rfl, rfl⟩, ⟨rfl, rfl⟩, by show status_ok 0xFF 0x20 0x00; decide⟩),
   rfl⟩

theorem accepted_of_good_replies (w : World)
    (hdev : ∀ n, (w.usb n).err = 0 ∧ (w.usb n).transferred = 64 ∧
      (w.usb n).status0 = 0x20 ∧ (w.usb n).status1 = 0x00) (j : Nat) : accepted w j := by
  unfold accepted cmd_ok moved64
  obtain ⟨a1, a2, _, _⟩ := hdev (w.calls + 2 * j)
  obtain ⟨b1, b2, b3, b4⟩ := hdev (w.calls + 2 * j + 1)
  refine ⟨⟨a1, a2⟩, ⟨b1, b2⟩, ?_⟩
  rw [b3, b4]
  unfold upload_mask
  split <;> decide

/-- C5 as amended. End-to-end success of `cypress_upload_image`: for an image
of `64 * N` bytes with `N < 2 ^ 32` (the block count fits the `unsigned int`
loop counter of `cypress_writeflash`), when every transfer moves 64 bytes
and every reply reads `status0 = 0x20`, `status1 = 0x00`, the result is 0
and exactly `2 * N + 4` frames are sent, with opcodes ENTER_BOOTLOADER,
`2 * N` times WRITE_FLASH, VERIFY_FLASH, UPDATE_CHECKSUM, EXIT_BOOTLOADER in
this order; each command is one key callback, one OUT transfer, the 100 ms
sleep and one IN transfer, and every frame carries a valid checksum at
offset 45. -/
theorem upload_image_success (char_signed : Bool) (c : cypress) (image : Nat → Nat)
    (len N fuel : Nat) (w : World)
    (hlen : len = 64 * N) (hN : N < 2 ^ 32) (hfuel : N < fuel)
    (hdev : ∀ n, (w.usb n).err = 0 ∧ (w.usb n).transferred = 64 ∧
      (w.usb n).status0 = 0x20 ∧ (w.usb n).status1 = 0x00) :
    ∃ (w2 : World) (L : List (List Nat)),
      cypress_upload_image char_signed c image len fuel w = some (0, w2) ∧
      sent w2.trace = sent w.trace ++ L ∧
      L.length = 2 * N + 4 ∧
      L.map opcode = [CYPRESS_CMD_ENTERBL] ++ List.replicate (2 * N) CYPRESS_CMD_WRITEFL ++
        [CYPRESS_CMD_VERIFYFL, CYPRESS_CMD_UPCHK, CYPRESS_CMD_EXITBL] ∧
      key_calls w2.trace = key_calls w.trace + (2 * N + 4) ∧
      w2.trace = w.trace ++ L.flatMap (cmd_events c) ∧
      (∀ f ∈ L, checksum_ok f) := by
  have hdiv : len / 64 = N := by omega
  have h64 : len % 64 = 0 := by omega
  obtain ⟨w2, h1, _, _, h4, h5, h6⟩ := upload_all_accepted char_signed c image len fuel w h64
    (by rw [hdiv]; exact hN) (by rw [hdiv]; exact hfuel)
    (fun j _ => accepted_of_good_replies w hdev j)
  rw [hdiv] at h4 h5 h6
  exact ⟨w2, upload_frames char_signed c image N, h1, h4, upload_frames_length _ _ _ _,
    upload_frames_opcodes _ _ _ _, h5, h6, upload_frames_checksum _ _ _ _⟩

/-- C5 as amended, on a 64-byte image: result 0 and six commands in total. -/
theorem upload_image_success_witness :
    (∃ (w2 : World) (L : List (List Nat)),
      cypress_upload_image true default_session ramp_image 64 2 (reply_world 0x20 0x00)
        = some (0, w2) ∧
      sent w2.trace = sent (reply_world 0x20 0x00).trace ++ L ∧
      L.length = 2 * 1 + 4 ∧
      L.map opcode = [CYPRESS_CMD_ENTERBL] ++ List.replicate (2 * 1) CYPRESS_CMD_WRITEFL ++
        [CYPRESS_CMD_VERIFYFL, CYPRESS_CMD_UPCHK, CYPRESS_CMD_EXITBL] ∧
      key_calls w2.trace = key_calls (reply_world 0x20 0x00).trace + (2 * 1 + 4) ∧
      w2.trace = (reply_world 0x20 0x00).trace ++ L.flatMap (cmd_events default_session) ∧
      (∀ f ∈ L, checksum_ok f)) ∧
    (cypress_upload_image true default_session ramp_image 64 2 (reply_world 0x20 0x00)).map
        (fun r => (r.1, (sent r.2.trace).map opcode, key_calls r.2.trace, r.2.calls))
      = some (0, [0xFF38, 0xFF39, 0xFF39, 0xFF3A, 0xFF3C, 0xFF3B], 6, 12) :=
  ⟨upload_image_success true default_session ramp_image 64 1 2 (reply_world 0x20 0x00)
      rfl (by decide) (by decide) (fun _ => ⟨rfl, rfl, rfl, rfl⟩),
   rfl⟩

theorem upload_opcodes_take_verify (sgn : Bool) (c : cypress) (image : Nat → Nat) (N : Nat) :
    ((upload_frames sgn c image N).take (2 * N + 1 + 1)).map opcode =
      [CYPRESS_CMD_ENTERBL] ++ List.replicate (2 * N) CYPRESS_CMD_WRITEFL ++
        [CYPRESS_CMD_VERIFYFL] := by
  rw [List.map_take, upload_frames_opcodes]
  have e : [CYPRESS_CMD_ENTERBL] ++ List.replicate (2 * N) CYPRESS_CMD_WRITEFL ++
        [CYPRESS_CMD_VERIFYFL, CYPRESS_CMD_UPCHK, CYPRESS_CMD_EXITBL]
      = ([CYPRESS_CMD_ENTERBL] ++ List.replicate (2 * N) CYPRESS_CMD_WRITEFL ++
        [CYPRESS_CMD_VERIFYFL]) ++ [CYPRESS_CMD_UPCHK, CYPRESS_CMD_EXITBL] := by simp
  rw [e]
  apply List.take_left'
  simp

/-- C6 as amended. Fail-fast short-circuit of `cypress_upload_image`: for
every image of valid length with `len / 64 < 2 ^ 32` (the block count fits
the `unsigned int` loop counter of `cypress_writeflash`) and every device,
the frames sent are the first `m` frames of the full sequence enter, writes,
verify, update-checksum, exit, for some `m ≥ 1`; every command before the
last one sent was accepted; and either the result is 0 and all `2 * N + 4`
commands were sent and accepted, or the result is non-zero and the last
command sent is one the device rejected. When VERIFY_FLASH is the first
rejected command, the frames sent are enter, the writes and verify, and
neither UPDATE_CHECKSUM nor EXIT_BOOTLOADER. -/
theorem upload_image_fail_fast (char_signed : Bool) (c : cypress) (image : Nat → Nat)
    (len fuel : Nat) (w : World)
    (h64 : len % 64 = 0) (hlen : len / 64 < 2 ^ 32) (hfuel : len / 64 < fuel) :
    (upload_frames char_signed c image (len / 64)).map opcode =
      [CYPRESS_CMD_ENTERBL] ++ List.replicate (2 * (len / 64)) CYPRESS_CMD_WRITEFL ++
        [CYPRESS_CMD_VERIFYFL, CYPRESS_CMD_UPCHK, CYPRESS_CMD_EXITBL] ∧
    (∃ (r : Int) (w2 : World) (m : Nat),
      cypress_upload_image char_signed c image len fuel w = some (r, w2) ∧
      1 ≤ m ∧ m ≤ 2 * (len / 64) + 4 ∧
      sent w2.trace = sent w.trace ++ (upload_frames char_signed c image (len / 64)).take m ∧
      key_calls w2.trace = key_calls w.trace + m ∧
      (∀ j, j + 1 < m → accepted w j) ∧
      ((r = 0 ∧ m = 2 * (len / 64) + 4 ∧ accepted w (m - 1)) ∨
       (r ≠ 0 ∧ ¬ accepted w (m - 1)))) ∧
    ((∀ j, j < 2 * (len / 64) + 1 → accepted w j) → ¬ accepted w (2 * (len / 64) + 1) →
      ∃ (r : Int) (w2 : World) (L : List (List Nat)),
        cypress_upload_image char_signed c image len fuel w = some (r, w2) ∧ r ≠ 0 ∧
        sent w2.trace = sent w.trace ++ L ∧
        L.map opcode = [CYPRESS_CMD_ENTERBL] ++
          List.replicate (2 * (len / 64)) CYPRESS_CMD_WRITEFL ++ [CYPRESS_CMD_VERIFYFL]) := by
  have hcode : ∀ k : Nat, (if 1 ≤ k ∧ k ≤ 2 * (len / 64) then - EIO else (-1 : Int)) ≠ 0 := by
    intro k
    split <;> decide
  refine ⟨upload_frames_opcodes _ _ _ _, ?_, ?_⟩
  · by_cases hall : ∀ j, j < 2 * (len / 64) + 4 → accepted w j
    · obtain ⟨w2, h1, _, _, h4, h5, _⟩ :=
        upload_all_accepted char_signed c image len fuel w h64 hlen hfuel hall
      refine ⟨0, w2, 2 * (len / 64) + 4, h1, by omega, le_refl _, ?_, h5,
        fun j hj => hall j (by omega), Or.inl ⟨rfl, rfl, hall _ (by omega)⟩⟩
      rw [h4, List.take_of_length_le (by rw [upload_frames_length])]
    · have hex : ∃ k, ¬ (k < 2 * (len / 64) + 4 → accepted w k) := by
        by_contra hne
        apply hall
        intro j hj
        by_contra hj2
        exact hne ⟨j, fun h => hj2 (h hj)⟩
      have hspec := Nat.find_spec hex
      have hmin := fun j (hj : j < Nat.find hex) => Nat.find_min hex hj
      generalize Nat.find hex = k at hspec hmin
      have hk : k < 2 * (len / 64) + 4 := by
        by_contra hk
        exact hspec (fun h => absurd h hk)
      have hrej : ¬ accepted w k := fun h => hspec (fun _ => h)
      have hacc : ∀ j, j < k → accepted w j := by
        intro j hj
        have := hmin j hj
        by_contra hj2
        exact this (fun h => absurd (h (by omega)) hj2)
      obtain ⟨w2, h1, _, h4, h5⟩ :=
        upload_first_failure char_signed c image len fuel w h64 hlen hfuel k hk hacc hrej
      exact ⟨_, w2, k + 1, h1, by omega, by omega, h4, h5, fun j hj => hacc j (by omega),
        Or.inr ⟨hcode k, hrej⟩⟩
  · intro hacc hrej
    obtain ⟨w2, h1, _, h4, _⟩ := upload_first_failure char_signed c image len fuel w h64 hlen
      hfuel (2 * (len / 64) + 1) (by omega) hacc hrej
    exact ⟨_, w2, _, h1, hcode _, h4, upload_opcodes_take_verify _ _ _ _⟩

theorem and_bit_cases (x m : Nat) (hm : m = 0x20 ∨ m = 0x40 ∨ m = 0x80) :
    x &&& m = 0 ∨ x &&& m = m := by
  have hle : x &&& m ≤ m := Nat.and_le_right
  have hid : (x &&& m) &&& m = x &&& m := by rw [Nat.and_assoc, Nat.and_self]
  generalize x &&& m = y at hle hid
  rcases hm with rfl | rfl | rfl
  · have : ∀ y, y < 33 → y &&& 0x20 = y → y = 0 ∨ y = 0x20 := by decide
    exact this y (by omega) hid
  · have : ∀ y, y < 65 → y &&& 0x40 = y → y = 0 ∨ y = 0x40 := by decide
    exact this y (by omega) hid
  · have : ∀ y, y < 129 → y &&& 0x80 = y → y = 0 ∨ y = 0x80 := by decide
    exact this y (by omega) hid

theorem and_E0_split (x : Nat) :
    x &&& 0xE0 = (x &&& 0x20) ||| (x &&& 0x40) ||| (x &&& 0x80) := by
  rw [← Nat.and_or_distrib_left, ← Nat.and_or_distrib_left]
  rfl

/-- Bit-level reading of the enter-bootloader acceptance test. -/
theorem enter_status_bits (s0 s1 : Nat) :
    (s0 ||| s1) &&& 0xE0 = 0x20 ↔
      ((s0 &&& 0x20 = 0x20 ∨ s1 &&& 0x20 = 0x20) ∧
        s0 &&& 0x40 = 0 ∧ s1 &&& 0x40 = 0 ∧ s0 &&& 0x80 = 0 ∧ s1 &&& 0x80 = 0) := by
  rw [Nat.and_comm, Nat.and_or_distrib_left, Nat.and_comm, Nat.and_comm 0xE0 s1,
    and_E0_split s0, and_E0_split s1]
  rcases and_bit_cases s0 0x20 (Or.inl rfl) with a | a <;>
  rcases and_bit_cases s0 0x40 (Or.inr (Or.inl rfl)) with b | b <;>
  rcases and_bit_cases s0 0x80 (Or.inr (Or.inr rfl)) with d | d <;>
  rcases and_bit_cases s1 0x20 (Or.inl rfl) with a1 | a1 <;>
  rcases and_bit_cases s1 0x40 (Or.inr (Or.inl rfl)) with b1 | b1 <;>
  rcases and_bit_cases s1 0x80 (Or.inr (Or.inr rfl)) with d1 | d1 <;>
  rw [a, b, d, a1, b1, d1] <;> decide


/-- C6 as amended, on a 64-byte image whose VERIFY_FLASH reply reports an image verify
error: enter, two writes and verify are sent, nothing after, result -1. -/
theorem upload_image_fail_fast_witness :
    (64 % 64 = 0 ∧ 64 / 64 < 2 ^ 32 ∧ 64 / 64 < 2) ∧
    (∃ (r : Int) (w2 : World) (L : List (List Nat)),
      cypress_upload_image true default_session ramp_image 64 2 (status_from_world 6 0x22)
        = some (r, w2) ∧ r ≠ 0 ∧
      sent w2.trace = sent (status_from_world 6 0x22).trace ++ L ∧
      L.map opcode = [CYPRESS_CMD_ENTERBL] ++
        List.replicate (2 * (64 / 64)) CYPRESS_CMD_WRITEFL ++ [CYPRESS_CMD_VERIFYFL]) ∧
    (cypress_upload_image true default_session ramp_image 64 2 (status_from_world 6 0x22)).map
        (fun r => (r.1, (sent r.2.trace).map opcode, key_calls r.2.trace, r.2.calls))
      = some (-1, [0xFF38, 0xFF39, 0xFF39, 0xFF3A], 4, 8) :=
  ⟨⟨by decide, by decide, by decide⟩,
   (upload_image_fail_fast true default_session ramp_image 64 2 (status_from_world 6 0x22)
      (by decide) (by decide) (by decide)).2.2 (by decide) (by decide),
   rfl⟩

/-- C7. Image length validation: when `len` is not a multiple of 64,
`cypress_upload_image` returns `-EINVAL` and leaves the world as it found it:
no transfer, no sleep, no key callback. This holds for every amount of fuel,
the block loop is not reached. -/
theorem upload_image_bad_length (char_signed : Bool) (c : cypress) (image : Nat → Nat)
    (len fuel : Nat) (w : World) (h : len % 64 ≠ 0) :
    cypress_upload_image char_signed c image len fuel w = some (- EINVAL, w) := by
  unfold cypress_upload_image
  rw [if_pos h]

/-- C7 at length 100. -/
theorem upload_image_bad_length_witness :
    100 % 64 ≠ 0 ∧
    cypress_upload_image true default_session ramp_image 100 0 (reply_world 0x20 0x00)
      = some (-22, reply_world 0x20 0x00) :=
  ⟨by decide,
   upload_image_bad_length true default_session ramp_image 100 0 (reply_world 0x20 0x00)
     (by decide)⟩

/-- C8 fails for the code: with `len = 0` and an accepting device the upload
does not return `-EINVAL`; it returns 0 after sending ENTER_BOOTLOADER,
VERIFY_FLASH, UPDATE_CHECKSUM and EXIT_BOOTLOADER in eight transfers. -/
theorem upload_empty_image_counterexample :
    ¬ ((cypress_upload_image true default_session ramp_image 0 1 (reply_world 0x20 0x00)).map
        Prod.fst = some (- EINVAL)) ∧
    (cypress_upload_image true default_session ramp_image 0 1 (reply_world 0x20 0x00)).map
        (fun r => (r.1, (sent r.2.trace).map opcode, key_calls r.2.trace, r.2.calls))
      = some (0, [0xFF38, 0xFF3A, 0xFF3C, 0xFF3B], 4, 8) :=
  ⟨by decide, rfl⟩

/-- The outcome of `cypress_cmd_enterbl` when both transfers move 64 bytes. -/
theorem enterbl_iff (sgn : Bool) (c : cypress) (w : World)
    (hout : moved64 (w.usb w.calls)) (hin : moved64 (w.usb (w.calls + 1))) :
    (cypress_cmd_enterbl sgn c w).1 = 0 ↔
      ((w.usb (w.calls + 1)).status0 ||| (w.usb (w.calls + 1)).status1) &&& 0xE0 = 0x20 := by
  rw [cmd_enterbl_eq]
  have hst : status_ok (CYPRESS_STAT_INVALKEY ||| CYPRESS_STAT_INVALCMD)
      (w.usb (w.calls + 1)).status0 (w.usb (w.calls + 1)).status1 ↔
      ((w.usb (w.calls + 1)).status0 ||| (w.usb (w.calls + 1)).status1) &&& 0xE0 = 0x20 :=
    Iff.rfl
  rw [← hst]
  by_cases hs : status_ok (CYPRESS_STAT_INVALKEY ||| CYPRESS_STAT_INVALCMD)
      (w.usb (w.calls + 1)).status0 (w.usb (w.calls + 1)).status1
  · exact ⟨fun _ => hs, fun _ => (exchange_ok sgn c _ _ w ⟨hout, hin, hs⟩).1⟩
  · constructor
    · intro h0
      have h1 := (exchange_fail sgn c (plain_frame c CYPRESS_CMD_ENTERBL)
        (CYPRESS_STAT_INVALKEY ||| CYPRESS_STAT_INVALCMD) w (fun h => hs h.2.2)).1
      rw [h0] at h1
      exact absurd h1 (by decide)
    · intro h
      exact absurd h hs

/-- C10. `cypress_cmd_enterbl` uses the mask `INVALKEY | INVALCMD`: when both
transfers move 64 bytes it succeeds iff `((status0 | status1) & 0xE0) == 0x20`,
that is iff the BLMODE bit is set in one of the status bytes and neither the
invalid-key bit nor the invalid-command bit is set in either; and status
bytes that agree on the bits `0xE0` give the same outcome, whatever their
bits `0x01`, `0x02`, `0x04`, `0x08`, `0x10`. -/
theorem enterbl_mask (char_signed : Bool) (c : cypress) (w : World) (s0 s1 : Nat)
    (hout : (w.usb w.calls).err = 0 ∧ (w.usb w.calls).transferred = 64)
    (hin : (w.usb (w.calls + 1)).err = 0 ∧ (w.usb (w.calls + 1)).transferred = 64)
    (hs0 : (w.usb (w.calls + 1)).status0 = s0)
    (hs1 : (w.usb (w.calls + 1)).status1 = s1) :
    ((cypress_cmd_enterbl char_signed c w).1 = 0 ↔ (s0 ||| s1) &&& 0xE0 = 0x20) ∧
    ((cypress_cmd_enterbl char_signed c w).1 = 0 ↔
      ((s0 &&& 0x20 = 0x20 ∨ s1 &&& 0x20 = 0x20) ∧
        s0 &&& 0x40 = 0 ∧ s1 &&& 0x40 = 0 ∧ s0 &&& 0x80 = 0 ∧ s1 &&& 0x80 = 0)) ∧
    (∀ (w2 : World),
      ((w2.usb w2.calls).err = 0 ∧ (w2.usb w2.calls).transferred = 64) →
      ((w2.usb (w2.calls + 1)).err = 0 ∧ (w2.usb (w2.calls + 1)).transferred = 64) →
      (w2.usb (w2.calls + 1)).status0 &&& 0xE0 = s0 &&& 0xE0 →
      (w2.usb (w2.calls + 1)).status1 &&& 0xE0 = s1 &&& 0xE0 →
      ((cypress_cmd_enterbl char_signed c w2).1 = 0 ↔
        (cypress_cmd_enterbl char_signed c w).1 = 0)) := by
  have hmain := enterbl_iff char_signed c w hout hin
  rw [hs0, hs1] at hmain
  refine ⟨hmain, hmain.trans (enter_status_bits s0 s1), ?_⟩
  intro w2 hout2 hin2 ht0 ht1
  rw [hmain, enterbl_iff char_signed c w2 hout2 hin2]
  rw [Nat.and_comm, Nat.and_or_distrib_left, Nat.and_comm, Nat.and_comm 0xE0 _, ht0, ht1,
    Nat.and_comm (s0 ||| s1), Nat.and_or_distrib_left, Nat.and_comm, Nat.and_comm 0xE0 s1]

/-- C10 at the replies `(0x3F, 0x00)`, accepted although every bit below
`0x20` is set, and `(0x60, 0x00)`, rejected for the invalid-key bit. -/
theorem enterbl_mask_witness :
    (cypress_cmd_enterbl true default_session (reply_world 0x3F 0x00)).1 = 0 ∧
    (cypress_cmd_enterbl true default_session (reply_world 0x60 0x00)).1 ≠ 0 :=
  ⟨(enterbl_mask true default_session (reply_world 0x3F 0x00) 0x3F 0x00
      ⟨rfl, rfl⟩ ⟨rfl, rfl⟩ rfl rfl).1.mpr (by decide),
   fun h => absurd ((enterbl_mask true default_session (reply_world 0x60 0x00) 0x60 0x00
      ⟨rfl, rfl⟩ ⟨rfl, rfl⟩ rfl rfl).1.mp h) (by decide)⟩

/-- C11 fails for the code: a reply to ENTER_BOOTLOADER with
`status0 = 0x22` (BLMODE together with the image-verify error bit) makes
`cypress_cmd_enterbl` succeed. -/
theorem enterbl_other_bits_counterexample :
    (cypress_cmd_enterbl true default_session (reply_world 0x22 0x00)).1 = 0 := rfl

theorem getD_drop_take (f : List Nat) (a n i : Nat) (hi : i < n) :
    ((f.drop a).take n).getD i 0 = f.getD (a + i) 0 := by
  simp only [List.getD_eq_getElem?_getD, List.getElem?_take, if_pos hi, List.getElem?_drop]

/-- C12 fails for the code: on the all-`0xFF` frame `cmd_checksum` leaves
`payload[43]` at `0xFF`, while the checksum `0xD3` is in `payload[35]`. -/
theorem checksum_position_counterexample :
    (payload_field (cmd_checksum true (List.replicate 64 0xFF))).getD 43 0 = 0xFF ∧
    sum45 (List.replicate 64 0xFF) % 256 = 0xD3 ∧
    (payload_field (cmd_checksum true (List.replicate 64 0xFF))).getD 35 0 = 0xD3 :=
  ⟨rfl, rfl, rfl⟩

/-- C12 as amended: with the layout `command` (2 bytes), `key` (8 bytes),
`payload` (54 bytes), the checksum byte that `cmd_checksum` writes at frame
offset 45 is `payload[35]`; every other byte of `payload`, `payload[43]`
included, and the fields `command` and `key` keep their contents. -/
theorem checksum_position (char_signed : Bool) (f : List Nat) (hlen : f.length = 64)
    (hb : ∀ b ∈ f, b < 256) :
    OFF_PAYLOAD + 35 = 45 ∧
    (payload_field (cmd_checksum char_signed f)).getD 35 0 = sum45 f % 256 ∧
    (∀ i, i < 54 → i ≠ 35 →
      (payload_field (cmd_checksum char_signed f)).getD i 0 = (payload_field f).getD i 0) ∧
    key_field (cmd_checksum char_signed f) = key_field f ∧
    (cmd_checksum char_signed f).take 2 = f.take 2 := by
  refine ⟨rfl, ?_, ?_, ?_, ?_⟩
  · unfold payload_field
    rw [getD_drop_take _ _ _ _ (by decide)]
    exact cmd_checksum_byte45 char_signed f hlen hb
  · intro i hi hne
    unfold payload_field
    rw [getD_drop_take _ _ _ _ hi, getD_drop_take _ _ _ _ hi]
    exact cmd_checksum_getD char_signed f _ (by unfold OFF_PAYLOAD; omega)
  · unfold key_field
    rw [cmd_checksum_eq_set]
    apply List.ext_getElem?
    intro i
    simp only [List.getElem?_take, List.getElem?_drop]
    split
    · rw [List.getElem?_set_ne (by unfold OFF_KEY; omega)]
    · rfl
  · rw [cmd_checksum_eq_set]
    apply List.ext_getElem?
    intro i
    simp only [List.getElem?_take]
    split
    · rw [List.getElem?_set_ne (by omega)]
    · rfl

/-- C12 as amended, at the all-`0xFF` frame. -/
theorem checksum_position_witness :
    ((List.replicate 64 0xFF).length = 64 ∧ ∀ b ∈ List.replicate 64 0xFF, b < 256) ∧
    (payload_field (cmd_checksum true (List.replicate 64 0xFF))).getD 35 0
      = sum45 (List.replicate 64 0xFF) % 256 :=
  ⟨⟨by decide, by decide⟩,
   (checksum_position true (List.replicate 64 0xFF) (by decide) (by decide)).2.1⟩

/-- The frame of a command reaches the OUT endpoint whatever the device does. -/
theorem exchange_sent (sgn : Bool) (c : cypress) (f : List Nat) (M : Nat) (w : World) :
    sent (exchange sgn c f M w).2.trace = sent w.trace ++ [cmd_checksum sgn f] := by
  by_cases h : cmd_ok M w.usb w.calls
  · exact (exchange_ok sgn c f M w h).2.2.2.1
  · exact (exchange_fail sgn c f M w h).2.2.1

theorem plain_frame_layout (sgn : Bool) (c : cypress) (op : Nat)
    (hop : op / 256 % 256 = 0xFF)
    (hkey : ∀ i, i < 8 → (c.assign_key (List.replicate 8 0)).getD i 0 < 256) :
    plain_layout c op (cmd_checksum sgn (plain_frame c op)) := by
  refine ⟨?_, ?_, ?_, ?_, ?_, ?_⟩
  · rw [cmd_checksum_eq_set, List.length_set, plain_frame_length]
  · rw [cmd_checksum_getD _ _ _ (by decide), plain_frame_getD, if_pos rfl, hop]
  · rw [cmd_checksum_getD _ _ _ (by decide), plain_frame_getD, if_neg (by decide), if_pos rfl]
  · intro i hi
    rw [cmd_checksum_getD _ _ _ (by unfold OFF_KEY; omega), plain_frame_getD,
      if_neg (by unfold OFF_KEY; omega), if_neg (by unfold OFF_KEY; omega),
      if_pos (by unfold OFF_KEY; omega), show OFF_KEY + i - 2 = i from by unfold OFF_KEY; omega]
    exact Nat.mod_eq_of_lt (hkey i hi)
  · have h := checksum_ok_cmd_checksum sgn (plain_frame c op) (plain_frame_length c op)
      (plain_frame_bytes c op)
    exact h
  · intro i h10 _ h45
    rw [cmd_checksum_getD _ _ _ h45, plain_frame_getD, if_neg (by omega), if_neg (by omega),
      if_neg (by omega)]

/-- C13. Wire layout of the four payload-less commands: for every session
whose key callback writes bytes, each of `cypress_cmd_enterbl` (0xFF38),
`cypress_cmd_verifyfl` (0xFF3A), `cypress_cmd_exitbl` (0xFF3B) and
`cypress_cmd_updatechksum` (0xFF3C) hands exactly one frame to the OUT
endpoint, whatever the device answers, and that frame has byte 0 = `0xFF`,
byte 1 = the low opcode byte, bytes 2..9 = the bytes written by the key
callback, byte 45 = the checksum and zero in every other byte of 10..63. -/
theorem plain_command_layout (char_signed : Bool) (c : cypress) (w : World)
    (hkey : ∀ i, i < 8 → (c.assign_key (List.replicate 8 0)).getD i 0 < 256) :
    (∃ f, sent (cypress_cmd_enterbl char_signed c w).2.trace = sent w.trace ++ [f] ∧
      plain_layout c 0xFF38 f) ∧
    (∃ f, sent (cypress_cmd_verifyfl char_signed c w).2.trace = sent w.trace ++ [f] ∧
      plain_layout c 0xFF3A f) ∧
    (∃ f, sent (cypress_cmd_exitbl char_signed c w).2.trace = sent w.trace ++ [f] ∧
      plain_layout c 0xFF3B f) ∧
    (∃ f, sent (cypress_cmd_updatechksum char_signed c w).2.trace = sent w.trace ++ [f] ∧
      plain_layout c 0xFF3C f) := by
  refine ⟨⟨_, ?_, plain_frame_layout char_signed c 0xFF38 (by decide) hkey⟩,
    ⟨_, ?_, plain_frame_layout char_signed c 0xFF3A (by decide) hkey⟩,
    ⟨_, ?_, plain_frame_layout char_signed c 0xFF3B (by decide) hkey⟩,
    ⟨_, ?_, plain_frame_layout char_signed c 0xFF3C (by decide) hkey⟩⟩
  · rw [cmd_enterbl_eq]; exact exchange_sent _ _ _ _ _
  · rw [cmd_verifyfl_eq]; exact exchange_sent _ _ _ _ _
  · rw [cmd_exitbl_eq]; exact exchange_sent _ _ _ _ _
  · rw [cmd_updatechksum_eq]; exact exchange_sent _ _ _ _ _

/-- C13 with the default key `key[i] = i`: the ENTER_BOOTLOADER frame is
`FF 38 00 01 02 03 04 05 06 07`, zeros, and the checksum `0x53` at offset 45. -/
theorem plain_command_layout_witness :
    (∀ i, i < 8 → (default_session.assign_key (List.replicate 8 0)).getD i 0 < 256) ∧
    (∃ f, sent (cypress_cmd_enterbl true default_session (reply_world 0x20 0x00)).2.trace
        = sent (reply_world 0x20 0x00).trace ++ [f] ∧ plain_layout default_session 0xFF38 f) ∧
    sent (cypress_cmd_enterbl true default_session (reply_world 0x20 0x00)).2.trace
      = [[0xFF, 0x38, 0, 1, 2, 3, 4, 5, 6, 7] ++ List.replicate 35 0 ++ [0x53] ++
          List.replicate 18 0] :=
  ⟨by decide,
   (plain_command_layout true default_session (reply_world 0x20 0x00) (by decide)).1,
   rfl⟩

/-- C14. Transport failures in `cypress_send_command`: when the OUT transfer
reports an error or a count other than 64 the routine returns -1 after that
single transfer, with no sleep and no IN transfer; when the OUT transfer
succeeds, the actions are the OUT transfer, one sleep of 100 ms and the IN
transfer, in this order; and when the IN transfer then reports an error or a
count other than 64 the routine returns -1, whatever status bytes the
outcome carries. -/
theorem send_command_transport (char_signed : Bool) (c : cypress) (cmd : List Nat) (M : Nat)
    (w : World) :
    (¬ ((w.usb w.calls).err = 0 ∧ (w.usb w.calls).transferred = 64) →
      (cypress_send_command char_signed c cmd FRAME_SIZE M w).1 = -1 ∧
      (cypress_send_command char_signed c cmd FRAME_SIZE M w).2.trace
        = w.trace ++ [Event.bulk_out c.ep_out (cmd_checksum char_signed cmd) FRAME_SIZE] ∧
      (cypress_send_command char_signed c cmd FRAME_SIZE M w).2.calls = w.calls + 1) ∧
    (((w.usb w.calls).err = 0 ∧ (w.usb w.calls).transferred = 64) →
      (cypress_send_command char_signed c cmd FRAME_SIZE M w).2.trace
        = w.trace ++ [Event.bulk_out c.ep_out (cmd_checksum char_signed cmd) FRAME_SIZE,
            Event.msleep 100, Event.bulk_in c.ep_in FRAME_SIZE] ∧
      (cypress_send_command char_signed c cmd FRAME_SIZE M w).2.calls = w.calls + 2) ∧
    (((w.usb w.calls).err = 0 ∧ (w.usb w.calls).transferred = 64) →
      ¬ ((w.usb (w.calls + 1)).err = 0 ∧ (w.usb (w.calls + 1)).transferred = 64) →
      (cypress_send_command char_signed c cmd FRAME_SIZE M w).1 = -1) := by
  rw [send_command_eq]
  refine ⟨?_, ?_, ?_⟩
  · intro h
    have h1 : ¬ moved64 (w.usb w.calls) := h
    rw [if_neg h1]
    exact ⟨rfl, rfl, rfl⟩
  · intro h
    have h1 : moved64 (w.usb w.calls) := h
    rw [if_pos h1]
    split <;> exact ⟨rfl, rfl⟩
  · intro h hin
    have h1 : moved64 (w.usb w.calls) := h
    have h2 : ¬ (moved64 (w.usb (w.calls + 1)) ∧
        status_ok M (w.usb (w.calls + 1)).status0 (w.usb (w.calls + 1)).status1) :=
      fun hh => hin hh.1
    rw [if_pos h1, if_neg h2]

/-- C14 at a short write (63 bytes) and at a short read (63 bytes) whose
buffer holds `status0 = 0x20`. -/
theorem send_command_transport_witness :
    ((cypress_send_command true default_session (List.replicate 64 0) FRAME_SIZE 0xFF
        (xfer_world ⟨0, 63, 0, 0⟩ ⟨0, 64, 0x20, 0⟩)).1 = -1 ∧
      (cypress_send_command true default_session (List.replicate 64 0) FRAME_SIZE 0xFF
        (xfer_world ⟨0, 63, 0, 0⟩ ⟨0, 64, 0x20, 0⟩)).2.trace
        = (xfer_world ⟨0, 63, 0, 0⟩ ⟨0, 64, 0x20, 0⟩).trace ++
          [Event.bulk_out default_session.ep_out
            (cmd_checksum true (List.replicate 64 0)) FRAME_SIZE] ∧
      (cypress_send_command true default_session (List.replicate 64 0) FRAME_SIZE 0xFF
        (xfer_world ⟨0, 63, 0, 0⟩ ⟨0, 64, 0x20, 0⟩)).2.calls
        = (xfer_world ⟨0, 63, 0, 0⟩ ⟨0, 64, 0x20, 0⟩).calls + 1) ∧
    (cypress_send_command true default_session (List.replicate 64 0) FRAME_SIZE 0xFF
        (xfer_world ⟨0, 64, 0, 0⟩ ⟨0, 63, 0x20, 0⟩)).1 = -1 :=
  ⟨(send_command_transport true default_session (List.replicate 64 0) 0xFF
      (xfer_world ⟨0, 63, 0, 0⟩ ⟨0, 64, 0x20, 0⟩)).1 (by decide),
   (send_command_transport true default_session (List.replicate 64 0) 0xFF
      (xfer_world ⟨0, 64, 0, 0⟩ ⟨0, 63, 0x20, 0⟩)).2.2 (by decide) (by decide)⟩

/-- C15 fails for the code: a short bulk write (a transport error) and a
reply without the BLMODE bit after two good transfers (a protocol error)
give the same result value, -1. -/
theorem send_command_error_kinds_counterexample :
    (cypress_send_command true default_session (List.replicate 64 0) FRAME_SIZE 0xFF
        (xfer_world ⟨0, 63, 0, 0⟩ ⟨0, 64, 0x20, 0⟩)).1 = -1 ∧
    (cypress_send_command true default_session (List.replicate 64 0) FRAME_SIZE 0xFF
        (reply_world 0x00 0x00)).1 = -1 :=
  ⟨rfl, rfl⟩

/-- C15 as amended: the result of `cypress_send_command` distinguishes only
success from failure. It is -1 for a failed or short bulk write, -1 for a
failed or short bulk read and -1 for a status that fails validation, and 0
when both transfers move 64 bytes and the status passes. -/
theorem send_command_error_kinds (char_signed : Bool) (c : cypress) (cmd : List Nat) (M : Nat)
    (w : World) :
    ((cypress_send_command char_signed c cmd FRAME_SIZE M w).1 = 0 ∨
      (cypress_send_command char_signed c cmd FRAME_SIZE M w).1 = -1) ∧
    (¬ ((w.usb w.calls).err = 0 ∧ (w.usb w.calls).transferred = 64) →
      (cypress_send_command char_signed c cmd FRAME_SIZE M w).1 = -1) ∧
    (((w.usb w.calls).err = 0 ∧ (w.usb w.calls).transferred = 64) →
      ¬ ((w.usb (w.calls + 1)).err = 0 ∧ (w.usb (w.calls + 1)).transferred = 64) →
      (cypress_send_command char_signed c cmd FRAME_SIZE M w).1 = -1) ∧
    (((w.usb w.calls).err = 0 ∧ (w.usb w.calls).transferred = 64) →
      ((w.usb (w.calls + 1)).err = 0 ∧ (w.usb (w.calls + 1)).transferred = 64) →
      ((w.usb (w.calls + 1)).status0 ||| (w.usb (w.calls + 1)).status1) &&&
        ((M ||| 0x20) &&& 0xFE) ≠ 0x20 →
      (cypress_send_command char_signed c cmd FRAME_SIZE M w).1 = -1) ∧
    (((w.usb w.calls).err = 0 ∧ (w.usb w.calls).transferred = 64) →
      ((w.usb (w.calls + 1)).err = 0 ∧ (w.usb (w.calls + 1)).transferred = 64) →
      ((w.usb (w.calls + 1)).status0 ||| (w.usb (w.calls + 1)).status1) &&&
        ((M ||| 0x20) &&& 0xFE) = 0x20 →
      (cypress_send_command char_signed c cmd FRAME_SIZE M w).1 = 0) := by
  rw [send_command_eq]
  refine ⟨?_, ?_, ?_, ?_, ?_⟩
  · split
    · split
      · exact Or.inl rfl
      · exact Or.inr rfl
    · exact Or.inr rfl
  · intro h
    have h1 : ¬ moved64 (w.usb w.calls) := h
    rw [if_neg h1]
  · intro h hin
    have h1 : moved64 (w.usb w.calls) := h
    rw [if_pos h1, if_neg (fun hh => hin hh.1)]
  · intro h hin hst
    have h1 : moved64 (w.usb w.calls) := h
    rw [if_pos h1, if_neg (fun hh => hst hh.2)]
  · intro h hin hst
    have h1 : moved64 (w.usb w.calls) := h
    have h2 : moved64 (w.usb (w.calls + 1)) := hin
    have h3 : status_ok M (w.usb (w.calls + 1)).status0 (w.usb (w.calls + 1)).status1 := hst
    rw [if_pos h1, if_pos ⟨h2, h3⟩]

/-- C15 as amended, at a short write, a short read and a rejected status. -/
theorem send_command_error_kinds_witness :
    (cypress_send_command true default_session (List.replicate 64 0) FRAME_SIZE 0xFF
        (xfer_world ⟨0, 63, 0, 0⟩ ⟨0, 64, 0x20, 0⟩)).1 = -1 ∧
    (cypress_send_command true default_session (List.replicate 64 0) FRAME_SIZE 0xFF
        (xfer_world ⟨0, 64, 0, 0⟩ ⟨0, 63, 0x20, 0⟩)).1 = -1 ∧
    (cypress_send_command true default_session (List.replicate 64 0) FRAME_SIZE 0xFF
        (reply_world 0x00 0x00)).1 = -1 :=
  ⟨(send_command_error_kinds true default_session (List.replicate 64 0) 0xFF
      (xfer_world ⟨0, 63, 0, 0⟩ ⟨0, 64, 0x20, 0⟩)).2.1 (by decide),
   (send_command_error_kinds true default_session (List.replicate 64 0) 0xFF
      (xfer_world ⟨0, 64, 0, 0⟩ ⟨0, 63, 0x20, 0⟩)).2.2.1 (by decide) (by decide),
   (send_command_error_kinds true default_session (List.replicate 64 0) 0xFF
      (reply_world 0x00 0x00)).2.2.2.1 (by decide) (by decide) (by decide)⟩

theorem send_command_stat_eq (M s0 s1 : Nat) :
    send_command_stat M s0 s1 = (s0 ||| s1) &&& ((M ||| 0x20) &&& 0xFE) :=
  stat_eq M s0 s1

theorem observed_lt (M s0 s1 : Nat) : (s0 ||| s1) &&& ((M ||| 0x20) &&& 0xFE) < 256 := by
  have h1 : (s0 ||| s1) &&& ((M ||| 0x20) &&& 0xFE) ≤ (M ||| 0x20) &&& 0xFE := Nat.and_le_right
  have h2 : (M ||| 0x20) &&& 0xFE ≤ 0xFE := Nat.and_le_right
  omega

theorem observed_bootok_clear (M s0 s1 : Nat) :
    ((s0 ||| s1) &&& ((M ||| 0x20) &&& 0xFE)) &&& 0xFE
      = (s0 ||| s1) &&& ((M ||| 0x20) &&& 0xFE) := by
  rw [Nat.and_assoc, Nat.and_assoc (M ||| 0x20), Nat.and_self]

set_option maxRecDepth 100000 in
/-- The buffer of `cypress_print_status` is the cause list joined by ", ". -/
theorem print_status_buf_eq : ∀ s, s < 256 →
    cypress_print_status_buf s = String.intercalate ", " (cause_list s) := by
  decide

set_option maxRecDepth 100000 in
/-- A masked status other than `0x20` has at least one cause. -/
theorem cause_list_ne_nil : ∀ o, o < 256 → o &&& 0xFE = o → o ≠ 0x20 → cause_list o ≠ [] := by
  decide

set_option maxRecDepth 100000 in
theorem print_status_buf_length : ∀ s, s < 256 → (cypress_print_status_buf s).length ≤ 159 := by
  decide

theorem print_status_buf_mod (status : Nat) :
    cypress_print_status_buf status = cypress_print_status_buf (status % 256) := by
  unfold cypress_print_status_buf
  rw [Nat.mod_mod]

/-- C16. Decoded cause list of a protocol failure: when both transfers move
64 bytes and `cypress_send_command` fails, the status handed to
`cypress_print_status` is `observed = (status0 | status1) & ((M | 0x20) & 0xFE)`,
the text goes to `razer_error`, and the buffer is the list of the messages
"Not in bootloader mode" (bit `0x20` of `observed` clear), "Image verify
error" (`0x02` set), "Flash checksum error" (`0x04`), "Flash protection
error" (`0x08`), "Communication checksum error" (`0x10`), "Invalid
bootloader key" (`0x40`), "Invalid command" (`0x80`), in this order, joined
by ", "; and this list is never empty. -/
theorem print_status_causes (char_signed : Bool) (c : cypress) (cmd : List Nat)
    (M s0 s1 : Nat) (w : World)
    (hout : (w.usb w.calls).err = 0 ∧ (w.usb w.calls).transferred = 64)
    (hin : (w.usb (w.calls + 1)).err = 0 ∧ (w.usb (w.calls + 1)).transferred = 64)
    (hs0 : (w.usb (w.calls + 1)).status0 = s0)
    (hs1 : (w.usb (w.calls + 1)).status1 = s1)
    (hfail : (cypress_send_command char_signed c cmd FRAME_SIZE M w).1 ≠ 0) :
    send_command_stat M s0 s1 = (s0 ||| s1) &&& ((M ||| 0x20) &&& 0xFE) ∧
    send_command_report M s0 s1 = some (true, String.intercalate ", "
      (cause_list ((s0 ||| s1) &&& ((M ||| 0x20) &&& 0xFE)))) ∧
    cause_list ((s0 ||| s1) &&& ((M ||| 0x20) &&& 0xFE)) ≠ [] := by
  have h1 : moved64 (w.usb w.calls) := hout
  have h2 : moved64 (w.usb (w.calls + 1)) := hin
  have hne : (s0 ||| s1) &&& ((M ||| 0x20) &&& 0xFE) ≠ 0x20 := by
    intro hst
    apply hfail
    have h3 : status_ok M (w.usb (w.calls + 1)).status0 (w.usb (w.calls + 1)).status1 := by
      rw [hs0, hs1]; exact hst
    rw [send_command_eq, if_pos h1, if_pos ⟨h2, h3⟩]
  have hlt := observed_lt M s0 s1
  refine ⟨send_command_stat_eq M s0 s1, ?_, ?_⟩
  · unfold send_command_report
    have hne2 : (s0 ||| s1) &&& ((M ||| 0x20) &&& 0xFE) ≠ CYPRESS_STAT_BLMODE := hne
    rw [send_command_stat_eq, if_pos hne2]
    unfold cypress_print_status
    rw [print_status_buf_eq _ hlt]
    rfl
  · exact cause_list_ne_nil _ hlt (observed_bootok_clear M s0 s1) hne

/-- C16 at the reply `(0x60, 0x00)` under the mask `0xFF`, whose only cause
is the invalid key, and at `(0x06, 0x00)`, which has three causes. -/
theorem print_status_causes_witness :
    (send_command_report 0xFF 0x60 0x00 = some (true, String.intercalate ", "
        (cause_list ((0x60 ||| 0x00) &&& ((0xFF ||| 0x20) &&& 0xFE)))) ∧
      cause_list ((0x60 ||| 0x00) &&& ((0xFF ||| 0x20) &&& 0xFE)) ≠ []) ∧
    send_command_report 0xFF 0x60 0x00 = some (true, "Invalid bootloader key") ∧
    send_command_report 0xFF 0x06 0x00 = some (true,
      "Not in bootloader mode, Image verify error, Flash checksum error") :=
  ⟨(print_status_causes true default_session (List.replicate 64 0) 0xFF 0x60 0x00
      (reply_world 0x60 0x00) ⟨rfl, rfl⟩ ⟨rfl, rfl⟩ rfl rfl (by decide)).2,
   rfl, rfl⟩

/-- C17. Opening is unconditionally guarded off: for every session, device
and key callback, a null one included, `cypress_open` returns -1 and hands
back the session object and the world exactly as it received them, so that
no key callback, endpoint or USB configuration is stored and no transport
operation is called; its result is never 0. -/
theorem cypress_open_fails (c : cypress) (dev : Nat)
    (assign_key : Option (List Nat → List Nat)) (w : World) :
    (cypress_open c dev assign_key w).1 = -1 ∧
    (cypress_open c dev assign_key w).2.1 = c ∧
    (cypress_open c dev assign_key w).2.2 = w ∧
    (cypress_open c dev assign_key w).1 ≠ 0 :=
  ⟨rfl, rfl, rfl, fun h => absurd (show (-1 : Int) = 0 from h) (by decide)⟩

/-- C20. The status message buffer never overflows: for every status value
and either report level, the text that `cypress_print_status` accumulates is
at most 159 characters long, so with its terminating NUL it fits the 512-byte
buffer; the bound is reached at status `0xDE`, where all seven messages and
six separators are present. -/
theorem print_status_buf_fits (status : Nat) (error : Int) :
    (cypress_print_status status error).2.length ≤ 159 ∧
    (cypress_print_status status error).2.length + 1 ≤ 512 ∧
    (cypress_print_status 0xDE error).2.length = 159 := by
  have h : (cypress_print_status_buf status).length ≤ 159 := by
    rw [print_status_buf_mod]
    exact print_status_buf_length _ (Nat.mod_lt _ (by decide))
  refine ⟨h, ?_, rfl⟩
  have h2 : (cypress_print_status status error).2.length ≤ 159 := h
  omega

/-- Unless every one of the first `n` commands is accepted, there is a first
rejected one. -/
theorem first_rejected (w : World) (n : Nat) (hall : ¬ ∀ j, j < n → accepted w j) :
    ∃ k, k < n ∧ (∀ j, j < k → accepted w j) ∧ ¬ accepted w k := by
  induction n with
  | zero => exact absurd (fun j hj => absurd hj (Nat.not_lt_zero j)) hall
  | succ n ih =>
    by_cases hn : ∀ j, j < n → accepted w j
    · refine ⟨n, Nat.lt_succ_self n, hn, ?_⟩
      intro hacc
      apply hall
      intro j hj
      rcases Nat.lt_succ_iff_lt_or_eq.mp hj with h | h
      · exact hn j h
      · rw [h]; exact hacc
    · obtain ⟨k, hk, h1, h2⟩ := ih hn
      exact ⟨k, Nat.lt_succ_of_lt hk, h1, h2⟩

/-- C18 as amended. Result characterisation of `cypress_upload_image`: for
every length with `len / 64 < 2 ^ 32` (the block count fits the
`unsigned int` loop counter of `cypress_writeflash`) and every device the
call returns one of 0, -1, `-EIO`, `-EINVAL`; it returns `-EINVAL` iff
`len % 64 ≠ 0`; `-EIO` iff the length is valid and the first rejected
command is a WRITE_FLASH (position 1 to `2 * N`, enter and the earlier
writes accepted); -1 iff the length is valid and the first rejected command
is enter (position 0) or verify, update-checksum or exit (positions
`2 * N + 1` to `2 * N + 3`); and 0 iff the length is valid and all
`2 * N + 4` commands are accepted. -/
theorem upload_result_values (char_signed : Bool) (c : cypress) (image : Nat → Nat)
    (len fuel : Nat) (w : World) (hlen : len / 64 < 2 ^ 32) (hfuel : len / 64 < fuel) :
    ∃ (r : Int) (w2 : World),
      cypress_upload_image char_signed c image len fuel w = some (r, w2) ∧
      (r = 0 ∨ r = -1 ∨ r = - EIO ∨ r = - EINVAL) ∧
      (r = - EINVAL ↔ len % 64 ≠ 0) ∧
      (r = - EIO ↔ len % 64 = 0 ∧ ∃ k, 1 ≤ k ∧ k ≤ 2 * (len / 64) ∧
        (∀ j, j < k → accepted w j) ∧ ¬ accepted w k) ∧
      (r = -1 ↔ len % 64 = 0 ∧ ∃ k, (k = 0 ∨ 2 * (len / 64) < k) ∧ k < 2 * (len / 64) + 4 ∧
        (∀ j, j < k → accepted w j) ∧ ¬ accepted w k) ∧
      (r = 0 ↔ len % 64 = 0 ∧ ∀ j, j < 2 * (len / 64) + 4 → accepted w j) := by
  have e5 : (- EIO : Int) = -5 := rfl
  have e22 : (- EINVAL : Int) = -22 := rfl
  by_cases h64 : len % 64 = 0
  · by_cases hall : ∀ j, j < 2 * (len / 64) + 4 → accepted w j
    · obtain ⟨w2, h1, _⟩ :=
        upload_all_accepted char_signed c image len fuel w h64 hlen hfuel hall
      refine ⟨0, w2, h1, Or.inl rfl, ?_, ?_, ?_, ?_⟩
      · rw [e22]; constructor
        · intro h; exact absurd h (by decide)
        · intro h; exact absurd h64 h
      · rw [e5]; constructor
        · intro h; exact absurd h (by decide)
        · rintro ⟨_, k, _, hk, _, hrej⟩
          exact absurd (hall k (by omega)) hrej
      · constructor
        · intro h; exact absurd h (by decide)
        · rintro ⟨_, k, _, hk, _, hrej⟩
          exact absurd (hall k hk) hrej
      · exact ⟨fun _ => ⟨h64, hall⟩, fun _ => rfl⟩
    · obtain ⟨k, hk, hacc, hrej⟩ := first_rejected w _ hall
      obtain ⟨w2, h1, _⟩ :=
        upload_first_failure char_signed c image len fuel w h64 hlen hfuel k hk hacc hrej
      have huniq : ∀ k2, (∀ j, j < k2 → accepted w j) → ¬ accepted w k2 → k2 = k := by
        intro k2 hacc2 hrej2
        rcases Nat.lt_trichotomy k2 k with h | h | h
        · exact absurd (hacc k2 h) hrej2
        · exact h
        · exact absurd (hacc2 k h) hrej
      by_cases hw : 1 ≤ k ∧ k ≤ 2 * (len / 64)
      · rw [if_pos hw] at h1
        refine ⟨- EIO, w2, h1, Or.inr (Or.inr (Or.inl rfl)), ?_, ?_, ?_, ?_⟩
        · rw [e5, e22]; constructor
          · intro h; exact absurd h (by decide)
          · intro h; exact absurd h64 h
        · exact ⟨fun _ => ⟨h64, k, hw.1, hw.2, hacc, hrej⟩, fun _ => rfl⟩
        · rw [e5]; constructor
          · intro h; exact absurd h (by decide)
          · rintro ⟨_, k2, hk2, _, hacc2, hrej2⟩
            have := huniq k2 hacc2 hrej2
            omega
        · rw [e5]; constructor
          · intro h; exact absurd h (by decide)
          · rintro ⟨_, hall2⟩
            exact absurd hall2 hall
      · rw [if_neg hw] at h1
        refine ⟨-1, w2, h1, Or.inr (Or.inl rfl), ?_, ?_, ?_, ?_⟩
        · rw [e22]; constructor
          · intro h; exact absurd h (by decide)
          · intro h; exact absurd h64 h
        · rw [e5]; constructor
          · intro h; exact absurd h (by decide)
          · rintro ⟨_, k2, hk2, hk3, hacc2, hrej2⟩
            have := huniq k2 hacc2 hrej2
            omega
        · exact ⟨fun _ => ⟨h64, k, by omega, hk, hacc, hrej⟩, fun _ => rfl⟩
        · constructor
          · intro h; exact absurd h (by decide)
          · rintro ⟨_, hall2⟩
            exact absurd hall2 hall
  · have h1 : cypress_upload_image char_signed c image len fuel w = some (- EINVAL, w) := by
      unfold cypress_upload_image
      rw [if_pos h64]
    refine ⟨- EINVAL, w, h1, Or.inr (Or.inr (Or.inr rfl)), ?_, ?_, ?_, ?_⟩
    · exact ⟨fun _ => h64, fun _ => rfl⟩
    · rw [e5, e22]; constructor
      · intro h; exact absurd h (by decide)
      · intro h; exact absurd h.1 h64
    · rw [e22]; constructor
      · intro h; exact absurd h (by decide)
      · intro h; exact absurd h.1 h64
    · rw [e22]; constructor
      · intro h; exact absurd h (by decide)
      · intro h; exact absurd h.1 h64

/-- C18 as amended, on a 64-byte image: a rejected first write gives `-EIO`, a rejected
verify gives -1, an accepting device gives 0, and length 100 gives `-EINVAL`. -/
theorem upload_result_values_witness :
    (64 / 64 < 2 ^ 32 ∧ 64 / 64 < 2) ∧
    (∃ (r : Int) (w2 : World),
      cypress_upload_image true default_session ramp_image 64 2 (status_from_world 2 0x00)
        = some (r, w2) ∧
      (r = 0 ∨ r = -1 ∨ r = - EIO ∨ r = - EINVAL) ∧
      (r = - EINVAL ↔ 64 % 64 ≠ 0) ∧
      (r = - EIO ↔ 64 % 64 = 0 ∧ ∃ k, 1 ≤ k ∧ k ≤ 2 * (64 / 64) ∧
        (∀ j, j < k → accepted (status_from_world 2 0x00) j) ∧
        ¬ accepted (status_from_world 2 0x00) k) ∧
      (r = -1 ↔ 64 % 64 = 0 ∧ ∃ k, (k = 0 ∨ 2 * (64 / 64) < k) ∧ k < 2 * (64 / 64) + 4 ∧
        (∀ j, j < k → accepted (status_from_world 2 0x00) j) ∧
        ¬ accepted (status_from_world 2 0x00) k) ∧
      (r = 0 ↔ 64 % 64 = 0 ∧
        ∀ j, j < 2 * (64 / 64) + 4 → accepted (status_from_world 2 0x00) j)) ∧
    (cypress_upload_image true default_session ramp_image 64 2
        (status_from_world 2 0x00)).map Prod.fst = some (-5) ∧
    (cypress_upload_image true default_session ramp_image 64 2
        (status_from_world 6 0x22)).map Prod.fst = some (-1) ∧
    (cypress_upload_image true default_session ramp_image 64 2
        (reply_world 0x20 0x00)).map Prod.fst = some 0 ∧
    (cypress_upload_image true default_session ramp_image 100 2
        (reply_world 0x20 0x00)).map Prod.fst = some (-22) :=
  ⟨⟨by decide, by decide⟩,
   upload_result_values true default_session ramp_image 64 2 (status_from_world 2 0x00)
     (by decide) (by decide),
   rfl, rfl, rfl, rfl⟩

theorem writefl_frame_mod (c : cypress) (b s : Nat) (d : Nat → Nat) :
    writefl_frame c (b % 2 ^ 32) s d = writefl_frame c b s d := by
  have h : b % 2 ^ 32 % 2 ^ 16 = b % 2 ^ 16 := Nat.mod_mod_of_dvd b (by decide)
  unfold writefl_frame
  rw [h]

theorem writeflash_steps_step (sgn : Bool) (c : cypress) (image : Nat → Nat) (len : Nat)
    (f block off : Nat) (w : World) (hlt : block < len / 64) :
    cypress_writeflash_steps sgn c image len (f + 1) block off w =
      if (exchange sgn c (writefl_frame c block 0 (fun j => image (off + j)))
          CYPRESS_STAT_ALL w).1 ≠ 0 then
        (some (- EIO), (exchange sgn c (writefl_frame c block 0 (fun j => image (off + j)))
          CYPRESS_STAT_ALL w).2)
      else if (exchange sgn c (writefl_frame c block 1 (fun j => image (off + 32 + j)))
          CYPRESS_STAT_ALL (exchange sgn c (writefl_frame c block 0 (fun j => image (off + j)))
            CYPRESS_STAT_ALL w).2).1 ≠ 0 then
        (some (- EIO), (exchange sgn c (writefl_frame c block 1 (fun j => image (off + 32 + j)))
          CYPRESS_STAT_ALL (exchange sgn c (writefl_frame c block 0 (fun j => image (off + j)))
            CYPRESS_STAT_ALL w).2).2)
      else
        cypress_writeflash_steps sgn c image len f ((block + 1) % 2 ^ 32) (off + 32 + 32)
          (exchange sgn c (writefl_frame c block 1 (fun j => image (off + 32 + j)))
            CYPRESS_STAT_ALL (exchange sgn c (writefl_frame c block 0 (fun j => image (off + j)))
              CYPRESS_STAT_ALL w).2).2 := by
  rw [cypress_writeflash_steps, if_pos hlt]
  rfl

/-- The loop with fuel returns what the observed loop has returned. -/
theorem writeflash_loop_eq_steps (sgn : Bool) (c : cypress) (image : Nat → Nat) (len : Nat) :
    ∀ (fuel block off : Nat) (w : World),
      cypress_writeflash_loop sgn c image len fuel block off w
        = returned (cypress_writeflash_steps sgn c image len fuel block off w) := by
  intro fuel
  induction fuel with
  | zero => intro block off w; rfl
  | succ f ih =>
    intro block off w
    by_cases hlt : block < len / 64
    · rw [writeflash_loop_step sgn c image len f block off w hlt,
        writeflash_steps_step sgn c image len f block off w hlt, ih]
      generalize exchange sgn c (writefl_frame c block 0 (fun j => image (off + j)))
        CYPRESS_STAT_ALL w = A
      generalize exchange sgn c (writefl_frame c block 1 (fun j => image (off + 32 + j)))
        CYPRESS_STAT_ALL A.2 = B
      by_cases hA : A.1 ≠ 0
      · rw [if_pos hA, if_pos hA]; rfl
      · rw [if_neg hA, if_neg hA]
        by_cases hB : B.1 ≠ 0
        · rw [if_pos hB, if_pos hB]; rfl
        · rw [if_neg hB, if_neg hB]
    · rw [cypress_writeflash_loop, cypress_writeflash_steps, if_neg hlt, if_neg hlt]
      rfl

/-- As long as the loop test holds, `n` iterations are the first `2 * n`
write commands, also when the block counter wraps. -/
theorem writeflash_steps_eq (sgn : Bool) (c : cypress) (image : Nat → Nat) (len : Nat) :
    ∀ (n b off : Nat) (w : World), (∀ j, j < n → (b + j) % 2 ^ 32 < len / 64) →
      cypress_writeflash_steps sgn c image len n (b % 2 ^ 32) off w =
        if (run sgn c (write_cmds c image n b off) w).1 ≠ 0 then
          (some (run sgn c (write_cmds c image n b off) w).1,
            (run sgn c (write_cmds c image n b off) w).2)
        else
          (none, (run sgn c (write_cmds c image n b off) w).2) := by
  intro n
  induction n with
  | zero => intro b off w _; rfl
  | succ n ih =>
    intro b off w hcont
    have hlt : b % 2 ^ 32 < len / 64 := by simpa using hcont 0 (Nat.succ_pos n)
    have hnext : (b % 2 ^ 32 + 1) % 2 ^ 32 = (b + 1) % 2 ^ 32 := by omega
    have hcont2 : ∀ j, j < n → (b + 1 + j) % 2 ^ 32 < len / 64 := by
      intro j hj
      have := hcont (j + 1) (by omega)
      rwa [show b + (j + 1) = b + 1 + j by ring] at this
    rw [writeflash_steps_step sgn c image len n (b % 2 ^ 32) off w hlt, hnext,
      ih (b + 1) (off + 32 + 32) _ hcont2, write_cmds_succ, run_cons, run_cons,
      writefl_frame_mod, writefl_frame_mod]
    generalize exchange sgn c (writefl_frame c b 0 (fun j => image (off + j)))
      CYPRESS_STAT_ALL w = A
    generalize exchange sgn c (writefl_frame c b 1 (fun j => image (off + 32 + j)))
      CYPRESS_STAT_ALL A.2 = B
    generalize run sgn c (write_cmds c image n (b + 1) (off + 32 + 32)) B.2 = R
    have hEIO : (- EIO : Int) ≠ 0 := by decide
    by_cases hA : A.1 ≠ 0
    · rw [if_pos hA, if_pos hA, if_pos hEIO]
    · rw [if_neg hA, if_neg hA]
      by_cases hB : B.1 ≠ 0
      · rw [if_pos hB, if_pos hB, if_pos hEIO]
      · rw [if_neg hB, if_neg hB]

theorem upload_of_writeflash_none (sgn : Bool) (c : cypress) (image : Nat → Nat)
    (len fuel : Nat) (w : World) (h64 : len % 64 = 0)
    (henter : (cypress_cmd_enterbl sgn c w).1 = 0)
    (hwr : cypress_writeflash sgn c image len fuel (cypress_cmd_enterbl sgn c w).2 = none) :
    cypress_upload_image sgn c image len fuel w = none := by
  unfold cypress_upload_image
  simp only [h64, ne_eq, not_true_eq_false, if_false, henter, hwr]

theorem upload_of_writeflash_err (sgn : Bool) (c : cypress) (image : Nat → Nat)
    (len fuel : Nat) (w w2 : World) (e : Int) (h64 : len % 64 = 0)
    (henter : (cypress_cmd_enterbl sgn c w).1 = 0)
    (hwr : cypress_writeflash sgn c image len fuel (cypress_cmd_enterbl sgn c w).2
      = some (e, w2)) (he : e ≠ 0) :
    cypress_upload_image sgn c image len fuel w = some (e, w2) := by
  unfold cypress_upload_image
  simp only [h64, ne_eq, not_true_eq_false, if_false, henter, hwr, he, not_false_eq_true,
    if_true]

theorem write_cmds_ok (c : cypress) (image : Nat → Nat) (n b off : Nat) (w : World)
    (hdev : ∀ k, k < 2 * n → cmd_ok CYPRESS_STAT_ALL w.usb (w.calls + 2 * k)) :
    ∀ j p, (write_cmds c image n b off)[j]? = some p →
      cmd_ok p.mask w.usb (w.calls + 2 * j) := by
  intro j p hp
  have hj : j < 2 * n := by
    have := (List.getElem?_eq_some_iff.mp hp).1
    rwa [write_cmds_length] at this
  rw [(write_cmds_code c image n b off p (List.getElem?_mem hp)).2]
  exact hdev j hj

/-- What the loop has done after `f` iterations that the device accepts and
that the loop test lets through: still running, `2 * f` frames sent. -/
theorem writeflash_steps_accepted (sgn : Bool) (c : cypress) (image : Nat → Nat)
    (len f : Nat) (w : World)
    (hcont : ∀ j, j < f → j % 2 ^ 32 < len / 64)
    (hdev : ∀ k, k < 2 * f → cmd_ok CYPRESS_STAT_ALL w.usb (w.calls + 2 * k)) :
    (cypress_writeflash_steps sgn c image len f 0 0 w).1 = none ∧
    sent (cypress_writeflash_steps sgn c image len f 0 0 w).2.trace = sent w.trace ++
      (write_cmds c image f 0 0).map (fun p => cmd_checksum sgn p.frame) := by
  obtain ⟨r1, _, _, r4, _, _⟩ := run_ok sgn c (write_cmds c image f 0 0) w
    (write_cmds_ok c image f 0 0 w hdev)
  have h := writeflash_steps_eq sgn c image len f 0 0 w
    (fun j hj => by rw [Nat.zero_add]; exact hcont j hj)
  rw [show (0 : Nat) % 2 ^ 32 = 0 from rfl, if_neg (by rw [r1]; decide)] at h
  rw [h]
  exact ⟨rfl, r4⟩

/-- With `2 ^ 32` blocks or more and a device that accepts every command the
write loop does not return, whatever the fuel. -/
theorem writeflash_never_returns (sgn : Bool) (c : cypress) (image : Nat → Nat)
    (len : Nat) (w : World) (h64 : len % 64 = 0) (hbig : 2 ^ 32 ≤ len / 64)
    (hdev : ∀ k, cmd_ok CYPRESS_STAT_ALL w.usb (w.calls + 2 * k)) (fuel : Nat) :
    cypress_writeflash sgn c image len fuel w = none := by
  unfold cypress_writeflash
  rw [if_neg (by simp [h64]), writeflash_loop_eq_steps]
  have h := (writeflash_steps_accepted sgn c image len fuel w
    (fun j _ => lt_of_lt_of_le (Nat.mod_lt j (by decide)) hbig) (fun k _ => hdev k)).1
  unfold returned
  rw [h]

theorem upload_never_returns (sgn : Bool) (c : cypress) (image : Nat → Nat)
    (len : Nat) (w : World) (h64 : len % 64 = 0) (hbig : 2 ^ 32 ≤ len / 64)
    (hacc : ∀ j, accepted w j) (fuel : Nat) :
    cypress_upload_image sgn c image len fuel w = none := by
  have h0 : cmd_ok (CYPRESS_STAT_INVALKEY ||| CYPRESS_STAT_INVALCMD) w.usb w.calls := by
    have := hacc 0
    unfold accepted upload_mask at this
    simpa using this
  have henter : (cypress_cmd_enterbl sgn c w).1 = 0 := by
    rw [cmd_enterbl_eq]; exact (exchange_ok sgn c _ _ w h0).1
  have husb : (cypress_cmd_enterbl sgn c w).2.usb = w.usb := by
    rw [cmd_enterbl_eq]; exact (exchange_ok sgn c _ _ w h0).2.1
  have hcalls : (cypress_cmd_enterbl sgn c w).2.calls = w.calls + 2 := by
    rw [cmd_enterbl_eq]; exact (exchange_ok sgn c _ _ w h0).2.2.1
  apply upload_of_writeflash_none sgn c image len fuel w h64 henter
  apply writeflash_never_returns sgn c image len _ h64 hbig
  intro k
  rw [husb, hcalls]
  have := hacc (k + 1)
  unfold accepted upload_mask at this
  rw [if_neg (by omega)] at this
  rw [show w.calls + 2 + 2 * k = w.calls + 2 * (k + 1) by ring]
  exact this

theorem accepted_reply_world (j : Nat) : accepted (reply_world 0x20 0x00) j :=
  accepted_of_good_replies (reply_world 0x20 0x00) (fun _ => ⟨rfl, rfl, rfl, rfl⟩) j

/-- C5 fails for the code: for an image of `2 ^ 32` blocks (`N = 2 ^ 32`,
256 GiB) and a device whose replies are all `(0x20, 0x00)`, no amount of
fuel makes `cypress_upload_image` return: the `unsigned int` block counter
wraps to 0 before it reaches `len / 64`, so the result is not 0 after
`2 * N + 4` commands. -/
theorem upload_image_success_counterexample :
    ¬ ∃ (fuel : Nat) (r : Int × World),
      cypress_upload_image true default_session ramp_image (64 * 2 ^ 32) fuel
        (reply_world 0x20 0x00) = some r := by
  rintro ⟨fuel, r, h⟩
  rw [upload_never_returns true default_session ramp_image (64 * 2 ^ 32)
    (reply_world 0x20 0x00) (by decide) (by decide) accepted_reply_world fuel] at h
  exact absurd h (by simp)

/-- C18 fails for the code: at `len = 64 * 2 ^ 32` the length is valid and
the device accepts every command, yet `cypress_upload_image` has no return
value at all, in particular not 0. -/
theorem upload_result_values_counterexample :
    (64 * 2 ^ 32) % 64 = 0 ∧
    (∀ j, j < 2 * (64 * 2 ^ 32 / 64) + 4 → accepted (reply_world 0x20 0x00) j) ∧
    ¬ ∃ (fuel : Nat) (r : Int) (w2 : World),
      cypress_upload_image false default_session ramp_image (64 * 2 ^ 32) fuel
        (reply_world 0x20 0x00) = some (r, w2) := by
  refine ⟨by decide, fun j _ => accepted_reply_world j, ?_⟩
  rintro ⟨fuel, r, w2, h⟩
  rw [upload_never_returns false default_session ramp_image (64 * 2 ^ 32)
    (reply_world 0x20 0x00) (by decide) (by decide) accepted_reply_world fuel] at h
  exact absurd h (by simp)

/-- An upload of `N ≥ 2 ^ 32` blocks in which the device accepts enter and
the `2 * N` writes of the image and rejects the next command: the loop has
run over the end of the image, the rejected command is one more WRITE_FLASH
and the result is `-EIO`. -/
theorem upload_overrun (sgn : Bool) (c : cypress) (image : Nat → Nat) (N : Nat) (w : World)
    (hbig : N = 2 ^ 32) (hacc : ∀ j, j < 2 * N + 1 → accepted w j)
    (hrej : ¬ cmd_ok CYPRESS_STAT_ALL w.usb (w.calls + 2 * (2 * N + 1))) :
    ∃ w2 : World,
      cypress_upload_image sgn c image (64 * N) (N + 1) w = some (- EIO, w2) ∧
      (sent w2.trace).map opcode = (sent w.trace).map opcode ++
        (CYPRESS_CMD_ENTERBL :: List.replicate (2 * N + 1) CYPRESS_CMD_WRITEFL) := by
  have hdiv : 64 * N / 64 = N := by omega
  have h64 : 64 * N % 64 = 0 := by omega
  have h0 : cmd_ok (CYPRESS_STAT_INVALKEY ||| CYPRESS_STAT_INVALCMD) w.usb w.calls := by
    have := hacc 0 (by omega)
    unfold accepted upload_mask at this
    simpa using this
  obtain ⟨e1, e2, e3, e4, _, _⟩ := exchange_ok sgn c (plain_frame c CYPRESS_CMD_ENTERBL)
    (CYPRESS_STAT_INVALKEY ||| CYPRESS_STAT_INVALCMD) w h0
  rw [← cmd_enterbl_eq] at e1 e2 e3 e4
  generalize hw1 : (cypress_cmd_enterbl sgn c w).2 = w1 at e2 e3 e4
  have hall : ∀ k, k < 2 * N → cmd_ok CYPRESS_STAT_ALL w1.usb (w1.calls + 2 * k) := by
    intro k hk
    rw [e2, e3]
    have := hacc (k + 1) (by omega)
    unfold accepted upload_mask at this
    rw [if_neg (by omega)] at this
    rw [show w.calls + 2 + 2 * k = w.calls + 2 * (k + 1) by ring]
    exact this
  obtain ⟨data, _, hget⟩ := write_cmds_getElem c image (N + 1) 0 0 (2 * N) (by omega)
  have hlt : ∀ j q, j < 2 * N → (write_cmds c image (N + 1) 0 0)[j]? = some q →
      cmd_ok q.mask w1.usb (w1.calls + 2 * j) := by
    intro j q hj hq
    rw [(write_cmds_code c image (N + 1) 0 0 q (List.getElem?_mem hq)).2]
    exact hall j hj
  have hno : ¬ cmd_ok CYPRESS_STAT_ALL w1.usb (w1.calls + 2 * (2 * N)) := by
    rw [e2, e3, show w.calls + 2 + 2 * (2 * N) = w.calls + 2 * (2 * N + 1) by ring]
    exact hrej
  obtain ⟨r0, _, r4, _⟩ := run_fail sgn c (write_cmds c image (N + 1) 0 0) w1 (2 * N) _ hget
    hlt hno
  have r1 : (run sgn c (write_cmds c image (N + 1) 0 0) w1).1 = - EIO := r0
  have hsteps := writeflash_steps_eq sgn c image (64 * N) (N + 1) 0 0 w1
    (fun j _ => by
      rw [hdiv, Nat.zero_add, hbig]
      exact Nat.mod_lt j (by decide))
  have hne : (run sgn c (write_cmds c image (N + 1) 0 0) w1).1 ≠ 0 := by
    rw [r1]; decide
  rw [show (0 : Nat) % 2 ^ 32 = 0 from rfl, if_pos hne, r1] at hsteps
  have hwr : cypress_writeflash sgn c image (64 * N) (N + 1) w1
      = some (- EIO, (run sgn c (write_cmds c image (N + 1) 0 0) w1).2) := by
    unfold cypress_writeflash
    rw [if_neg (by simp [h64]), writeflash_loop_eq_steps, hsteps]
    rfl
  refine ⟨_, upload_of_writeflash_err sgn c image (64 * N) (N + 1) w _ (- EIO) h64 e1
    (by rw [hw1]; exact hwr) (by decide), ?_⟩
  rw [r4, e4, List.map_append, List.map_append, List.map_take, List.map_take,
    write_cmds_opcodes, List.take_replicate, List.append_assoc]
  simp only [List.map_cons, List.map_nil, List.singleton_append, opcode_cmd_checksum]
  rw [opcode_plain_frame c _ (by decide), show min (2 * N + 1) (2 * (N + 1)) = 2 * N + 1 by omega]

theorem accepted_status_from (n0 s0 j : Nat) (h : 2 * j + 1 < n0) :
    accepted (status_from_world n0 s0) j := by
  unfold accepted cmd_ok
  refine ⟨⟨rfl, rfl⟩, ⟨rfl, rfl⟩, ?_⟩
  have e : ((status_from_world n0 s0).usb ((status_from_world n0 s0).calls + 2 * j + 1)).status0
      = 0x20 := by
    show (if 0 + 2 * j + 1 < n0 then 0x20 else s0) = 0x20
    rw [if_pos (by omega)]
  have e1 : ((status_from_world n0 s0).usb ((status_from_world n0 s0).calls + 2 * j + 1)).status1
      = 0x00 := rfl
  rw [e, e1]
  unfold upload_mask
  split <;> decide

/-- C6 fails for the code: for an image of `N = 2 ^ 32` blocks and a device
that accepts enter and the `2 * N` writes and rejects the command after
them, `cypress_upload_image` returns `-EIO` having sent enter and
`2 * N + 1` WRITE_FLASH frames. In the full sequence the command at that
position is VERIFY_FLASH, so the frames sent are not an initial segment of
it: the `unsigned int` block counter has wrapped and the loop has run on. -/
theorem upload_image_fail_fast_counterexample :
    ∃ w2 : World,
      cypress_upload_image true default_session ramp_image (64 * 2 ^ 32) (2 ^ 32 + 1)
        (status_from_world (2 * (2 * 2 ^ 32 + 1)) 0x00) = some (- EIO, w2) ∧
      (sent w2.trace).map opcode =
        CYPRESS_CMD_ENTERBL :: List.replicate (2 * 2 ^ 32 + 1) CYPRESS_CMD_WRITEFL := by
  obtain ⟨w2, h1, h2⟩ := upload_overrun true default_session ramp_image (2 ^ 32)
    (status_from_world (2 * (2 * 2 ^ 32 + 1)) 0x00) rfl
    (fun j hj => accepted_status_from _ _ j (by omega))
    (by
      intro h
      have h3 : status_ok CYPRESS_STAT_ALL 0x00 0x00 := h.2.2
      exact absurd h3 (by decide))
  exact ⟨w2, h1, h2⟩

/-- C8 as amended: an empty image passes the length check (0 is a multiple
of 64). For every device the frames sent are the first `m ≥ 1` of
ENTER_BOOTLOADER, VERIFY_FLASH, UPDATE_CHECKSUM, EXIT_BOOTLOADER, without
any WRITE_FLASH; every command before the last one sent was accepted; and
either the result is 0, all four were sent and the last was accepted, or
the result is -1 and the last one sent is one the device rejected. The
result is never `-EINVAL`. -/
theorem upload_empty_image (char_signed : Bool) (c : cypress) (image : Nat → Nat)
    (fuel : Nat) (w : World) (hfuel : 0 < fuel) :
    ∃ (r : Int) (w2 : World) (m : Nat),
      cypress_upload_image char_signed c image 0 fuel w = some (r, w2) ∧
      r ≠ - EINVAL ∧ 1 ≤ m ∧ m ≤ 4 ∧
      sent w2.trace = sent w.trace ++
        ([cmd_checksum char_signed (plain_frame c CYPRESS_CMD_ENTERBL),
          cmd_checksum char_signed (plain_frame c CYPRESS_CMD_VERIFYFL),
          cmd_checksum char_signed (plain_frame c CYPRESS_CMD_UPCHK),
          cmd_checksum char_signed (plain_frame c CYPRESS_CMD_EXITBL)]).take m ∧
      (∀ j, j + 1 < m → accepted w j) ∧
      ((r = 0 ∧ m = 4 ∧ accepted w 3) ∨ (r = -1 ∧ ¬ accepted w (m - 1))) := by
  have hfr : upload_frames char_signed c image (0 / 64) =
      [cmd_checksum char_signed (plain_frame c CYPRESS_CMD_ENTERBL),
       cmd_checksum char_signed (plain_frame c CYPRESS_CMD_VERIFYFL),
       cmd_checksum char_signed (plain_frame c CYPRESS_CMD_UPCHK),
       cmd_checksum char_signed (plain_frame c CYPRESS_CMD_EXITBL)] := rfl
  by_cases hall : ∀ j, j < 2 * (0 / 64) + 4 → accepted w j
  · obtain ⟨w2, h1, _, _, h4, _, _⟩ :=
      upload_all_accepted char_signed c image 0 fuel w rfl (by decide) hfuel hall
    rw [hfr] at h4
    exact ⟨0, w2, 4, h1, by decide, by decide, le_refl _, h4,
      fun j hj => hall j (by omega), Or.inl ⟨rfl, rfl, hall 3 (by decide)⟩⟩
  · obtain ⟨k, hk, hacc, hrej⟩ := first_rejected w _ hall
    obtain ⟨w2, h1, _, h4, _⟩ :=
      upload_first_failure char_signed c image 0 fuel w rfl (by decide) hfuel k hk hacc hrej
    rw [hfr] at h4
    rw [if_neg (by omega)] at h1
    exact ⟨-1, w2, k + 1, h1, by decide, by omega, by omega, h4,
      fun j hj => hacc j (by omega), Or.inr ⟨rfl, hrej⟩⟩

/-- C8 as amended, with the default session: a device that never sets BLMODE
gets one frame, ENTER_BOOTLOADER, and the result is -1; an accepting device
gets the four frames and the result is 0. -/
theorem upload_empty_image_witness :
    0 < 1 ∧
    (∃ (r : Int) (w2 : World) (m : Nat),
      cypress_upload_image true default_session ramp_image 0 1 (reply_world 0x00 0x00)
        = some (r, w2) ∧
      r ≠ - EINVAL ∧ 1 ≤ m ∧ m ≤ 4 ∧
      sent w2.trace = sent (reply_world 0x00 0x00).trace ++
        ([cmd_checksum true (plain_frame default_session CYPRESS_CMD_ENTERBL),
          cmd_checksum true (plain_frame default_session CYPRESS_CMD_VERIFYFL),
          cmd_checksum true (plain_frame default_session CYPRESS_CMD_UPCHK),
          cmd_checksum true (plain_frame default_session CYPRESS_CMD_EXITBL)]).take m ∧
      (∀ j, j + 1 < m → accepted (reply_world 0x00 0x00) j) ∧
      ((r = 0 ∧ m = 4 ∧ accepted (reply_world 0x00 0x00) 3) ∨
        (r = -1 ∧ ¬ accepted (reply_world 0x00 0x00) (m - 1)))) ∧
    (cypress_upload_image true default_session ramp_image 0 1 (reply_world 0x00 0x00)).map
        (fun r => (r.1, (sent r.2.trace).map opcode)) = some (-1, [0xFF38]) ∧
    (cypress_upload_image true default_session ramp_image 0 1 (reply_world 0x20 0x00)).map
        (fun r => (r.1, (sent r.2.trace).map opcode))
      = some (0, [0xFF38, 0xFF3A, 0xFF3C, 0xFF3B]) :=
  ⟨by decide,
   upload_empty_image true default_session ramp_image 1 (reply_world 0x00 0x00) (by decide),
   rfl, rfl⟩

theorem and_E0_parts (x : Nat) : x &&& 0xE0 = (x &&& 0x20) ||| (x &&& 0xC0) := by
  rw [← Nat.and_or_distrib_left]
  rfl

/-- C11 as amended: the mask of `cypress_cmd_enterbl` selects the bits
INVALKEY, INVALCMD and BLMODE only, and every other status bit is ignored.
When both transfers move 64 bytes the command succeeds iff
`status0 | status1` has BLMODE (`0x20`) set and neither `0x40` nor `0x80`;
so every reply with BLMODE in either status byte and without `0x40` and
`0x80` succeeds, whichever of the bits `0x01`, `0x02`, `0x04`, `0x08`,
`0x10` are set in either byte. -/
theorem enterbl_other_bits (char_signed : Bool) (c : cypress) (w : World) (s0 s1 : Nat)
    (hout : (w.usb w.calls).err = 0 ∧ (w.usb w.calls).transferred = 64)
    (hin : (w.usb (w.calls + 1)).err = 0 ∧ (w.usb (w.calls + 1)).transferred = 64)
    (hs0 : (w.usb (w.calls + 1)).status0 = s0)
    (hs1 : (w.usb (w.calls + 1)).status1 = s1) :
    ((cypress_cmd_enterbl char_signed c w).1 = 0 ↔
      ((s0 ||| s1) &&& 0x20 = 0x20 ∧ (s0 ||| s1) &&& 0xC0 = 0)) ∧
    (((s0 &&& 0x20 = 0x20 ∨ s1 &&& 0x20 = 0x20) ∧
        s0 &&& 0x40 = 0 ∧ s1 &&& 0x40 = 0 ∧ s0 &&& 0x80 = 0 ∧ s1 &&& 0x80 = 0) →
      (cypress_cmd_enterbl char_signed c w).1 = 0) := by
  have hmain := enterbl_iff char_signed c w hout hin
  rw [hs0, hs1] at hmain
  refine ⟨?_, fun h => hmain.mpr ((enter_status_bits s0 s1).mpr h)⟩
  rw [hmain]
  constructor
  · intro h
    constructor
    · have e : (s0 ||| s1) &&& 0x20 = ((s0 ||| s1) &&& 0xE0) &&& 0x20 := by
        rw [Nat.and_assoc]; rfl
      rw [e, h]; rfl
    · have e : (s0 ||| s1) &&& 0xC0 = ((s0 ||| s1) &&& 0xE0) &&& 0xC0 := by
        rw [Nat.and_assoc]; rfl
      rw [e, h]; rfl
  · rintro ⟨h1, h2⟩
    rw [and_E0_parts, h1, h2]
    rfl

/-- C11 as amended, at the replies `(0x22, 0x00)` and `(0x02, 0x20)`, which
both succeed, the second with BLMODE in `status1` only. -/
theorem enterbl_other_bits_witness :
    (cypress_cmd_enterbl true default_session (reply_world 0x22 0x00)).1 = 0 ∧
    (cypress_cmd_enterbl true default_session (reply_world 0x02 0x20)).1 = 0 :=
  ⟨(enterbl_other_bits true default_session (reply_world 0x22 0x00) 0x22 0x00
      ⟨rfl, rfl⟩ ⟨rfl, rfl⟩ rfl rfl).1.mpr (by decide),
   (enterbl_other_bits true default_session (reply_world 0x02 0x20) 0x02 0x20
      ⟨rfl, rfl⟩ ⟨rfl, rfl⟩ rfl rfl).2 (by decide)⟩

end Cypress
